import Mathlib

set_option maxHeartbeats 1000000
set_option maxRecDepth 8000
deriving instance DecidableEq for Except

/- Shallow embedding of src/openh264/src/formats/yuv2rgb.rs.

   The Rust code works on byte slices and f32 arithmetic.  Planes and the
   target buffer are modelled as List ℕ (each element a byte value); f32
   values are modelled as exact rationals together with an explicit
   round-to-nearest-even operation roundF32.  Every f32 value arising in
   this code from byte-valued inputs is 0 or has magnitude in
   [2 ^ (-30), 2 ^ 10], comfortably inside the binary32 normal range, so no
   overflow, underflow or NaN ever occurs and rounding each intermediate
   result to 24 significand bits is an exact model of the hardware
   arithmetic.  Rust's mul_add (and the wide crate's f32x8 mul_add, which
   compiles to a hardware FMA) performs a single rounding of the exact
   product-sum, modelled by fmaF32.  A panic (failed assert or
   out-of-bounds slice index) is modelled as Except.error carrying the
   target buffer as it stands at the moment of the panic; normal
   completion is Except.ok with the final buffer. -/

namespace Yuv2Rgb

/-- Fueled base-2 logarithm on ℕ (structural recursion so that kernel
reduction works): for n ≥ 1 and enough fuel, returns the position of the
highest set bit. -/
def log2Fuel : ℕ → ℕ → ℕ
  | 0, _ => 0
  | fuel + 1, n => if 2 ≤ n then log2Fuel fuel (n / 2) + 1 else 0

/-- Floor of the base-2 logarithm of the absolute value of a nonzero
rational, valid for magnitudes in the binary32 normal range (the scaling
by 2 ^ 140 keeps the argument of the integer logarithm positive). -/
def floorLog2 (x : ℚ) : ℤ := (log2Fuel 300 (⌊|x| * 2 ^ 140⌋).toNat : ℤ) - 140

/-- Round a rational to an integer, to nearest, ties to even. -/
def roundTiesEven (q : ℚ) : ℤ :=
  let n := ⌊q⌋
  if q - (n : ℚ) < 1 / 2 then n
  else if (1 : ℚ) / 2 < q - (n : ℚ) then n + 1
  else if n % 2 = 0 then n else n + 1

/-- IEEE-754 binary32 round-to-nearest-even, for values in the normal
range: scale so that the significand occupies 24 bits, round to an
integer, scale back. -/
def roundF32 (x : ℚ) : ℚ :=
  if x = 0 then 0
  else
    let k : ℤ := 23 - floorLog2 x
    if 0 ≤ k then (roundTiesEven (x * 2 ^ k.toNat) : ℚ) / 2 ^ k.toNat
    else (roundTiesEven (x / 2 ^ (-k).toNat) : ℚ) * 2 ^ (-k).toNat

/-- Fused multiply-add on the f32 model: one rounding of the exact a*b + c.
This is the semantics of f32::mul_add(self, a, b) and of
wide::f32x8::mul_add. -/
def fmaF32 (a b c : ℚ) : ℚ := roundF32 (a * b + c)

/-- The f32 literal 1.402f32 (exact value). -/
def c1402 : ℚ := 2940207 / 2097152

/-- The f32 literal 0.344f32 (exact value). -/
def c0344 : ℚ := 11542725 / 33554432

/-- The f32 literal 0.714f32 (exact value). -/
def c0714 : ℚ := 2994733 / 4194304

/-- The f32 literal 1.772f32 (exact value). -/
def c1772 : ℚ := 14864613 / 8388608

/-- Rust's saturating cast from f32 to u8 on a finite value: below 0 maps
to 0, above 255 maps to 255, otherwise truncate toward zero.  (NaN, which
the cast would send to 0, cannot arise from the byte-valued inputs of this
code.) -/
def satU8 (x : ℚ) : ℕ := if x < 0 then 0 else min 255 ⌊x⌋.toNat

/-- The scalar path for the R channel (yuv2rgb.rs line 45):
1.402f32.mul_add(v - 128.0, y) cast saturating to u8. -/
def rgbR (yv vv : ℕ) : ℕ := satU8 (fmaF32 c1402 ((vv : ℚ) - 128) (yv : ℚ))

/-- The scalar path for the G channel (yuv2rgb.rs line 46):
0.714f32.mul_add(-(v - 128.0), 0.344f32.mul_add(-(u - 128.0), y)) cast
saturating to u8. -/
def rgbG (yv uv vv : ℕ) : ℕ :=
  satU8 (fmaF32 c0714 (-((vv : ℚ) - 128)) (fmaF32 c0344 (-((uv : ℚ) - 128)) (yv : ℚ)))

/-- The scalar path for the B channel (yuv2rgb.rs line 47):
1.772f32.mul_add(u - 128.0, y) cast saturating to u8. -/
def rgbB (yv uv : ℕ) : ℕ := satU8 (fmaF32 c1772 ((uv : ℚ) - 128) (yv : ℚ))

/-- Body of the inner loop of write_rgb8_scalar for one pixel (x, y)
(yuv2rgb.rs lines 34-47).  The slice target[base_tgt..base_tgt + 3] is
taken first, then the three plane samples are read, then the three bytes
are written; the first out-of-bounds access panics, carrying the buffer
unchanged for this pixel. -/
def scalarPixelStep (yP uP vP : List ℕ) (w s0 s1 s2 y x : ℕ) (target : List ℕ) :
    Except (List ℕ) (List ℕ) :=
  let baseTgt := (y * w + x) * 3
  let baseY := y * s0 + x
  let baseU := y / 2 * s1 + x / 2
  let baseV := y / 2 * s2 + x / 2
  if target.length < baseTgt + 3 then .error target
  else if yP.length ≤ baseY then .error target
  else if uP.length ≤ baseU then .error target
  else if vP.length ≤ baseV then .error target
  else
    let yv := yP.getD baseY 0
    let uv := uP.getD baseU 0
    let vv := vP.getD baseV 0
    .ok (((target.set baseTgt (rgbR yv vv)).set (baseTgt + 1) (rgbG yv uv vv)).set
      (baseTgt + 2) (rgbB yv uv))

/-- Inner loop of write_rgb8_scalar: for x in 0..dim.0, starting at column
x with n columns left. -/
def scalarRowLoop (yP uP vP : List ℕ) (w s0 s1 s2 y : ℕ) :
    ℕ → ℕ → List ℕ → Except (List ℕ) (List ℕ)
  | _, 0, target => .ok target
  | x, n + 1, target =>
    match scalarPixelStep yP uP vP w s0 s1 s2 y x target with
    | .error t => .error t
    | .ok t => scalarRowLoop yP uP vP w s0 s1 s2 y (x + 1) n t

/-- Outer loop of write_rgb8_scalar: for y in 0..dim.1, starting at row y
with m rows left. -/
def scalarColLoop (yP uP vP : List ℕ) (w s0 s1 s2 : ℕ) :
    ℕ → ℕ → List ℕ → Except (List ℕ) (List ℕ)
  | _, 0, target => .ok target
  | y, m + 1, target =>
    match scalarRowLoop yP uP vP w s0 s1 s2 y 0 w target with
    | .error t => .error t
    | .ok t => scalarColLoop yP uP vP w s0 s1 s2 (y + 1) m t

/-- write_rgb8_scalar (yuv2rgb.rs lines 24-50): pixel-by-pixel conversion;
dim = (width, height), strides = (stride_y, stride_u, stride_v). -/
def write_rgb8_scalar (yP uP vP : List ℕ) (dim : ℕ × ℕ) (strides : ℕ × ℕ × ℕ)
    (target : List ℕ) : Except (List ℕ) (List ℕ) :=
  scalarColLoop yP uP vP dim.1 strides.1 strides.2.1 strides.2.2 0 dim.2 target

/-- Lane k (k < 8) of the f32x8 vector built by the macro
f32x8_from_slice_with_blocksize (yuv2rgb.rs lines 8-21) applied to a slice
suffix: the element buf[k / blockSize], converted to f32 (exact, the
samples being bytes). -/
def f32x8Lane (buf : List ℕ) (blockSize k : ℕ) : ℚ := (buf.getD (k / blockSize) 0 : ℚ)

/-- wide::f32x8 fast_min(255).fast_max(0) followed by fast_trunc_int and
the final i32-to-u8 cast of the write loop (yuv2rgb.rs lines 141-152).
After clamping, the value is in [0, 255], so truncation is the floor and
the u8 cast (modelled by the mod 256 of Rust's wrapping i32-to-u8 cast) is
the identity. -/
def clampTruncU8 (x : ℚ) : ℕ := (⌊max 0 (min 255 x)⌋).toNat % 256

/-- Interleaved scatter of the three integer lanes into the target row
(yuv2rgb.rs lines 149-153): for i in 0..8, pixels[3i] = r[i],
pixels[3i+1] = g[i], pixels[3i+2] = b[i].  Iterates lanes j, j+1, ...,
j+n-1. -/
def scatterLoop (r g b : ℕ → ℕ) (baseTgt : ℕ) : ℕ → ℕ → List ℕ → List ℕ
  | _, 0, t => t
  | j, n + 1, t =>
    scatterLoop r g b baseTgt (j + 1) n
      (((t.set (baseTgt + 3 * j) (r j)).set (baseTgt + 3 * j + 1) (g j)).set
        (baseTgt + 3 * j + 2) (b j))

/-- One batch of 8 pixels of write_rgb8_f32x8_row (yuv2rgb.rs lines
130-157): slice pixels = target[base_tgt..base_tgt + 24], gather the three
f32x8 packs (luma with block size 1, chroma with block size 2 from the
slice suffixes, minus 128), apply the FMA color transform, clamp,
truncate, and scatter.  The slice and the gathers panic (in this order) on
out-of-bounds access, before any write of this batch. -/
def rowBatchStep (yRow uRow vRow : List ℕ) (baseY baseUV baseTgt : ℕ) (t : List ℕ) :
    Except (List ℕ) (List ℕ) :=
  if t.length < baseTgt + 24 then .error t
  else if yRow.length < baseY + 8 then .error t
  else if uRow.length < baseUV + 4 then .error t
  else if vRow.length < baseUV + 4 then .error t
  else
    let yPack := fun k => f32x8Lane (yRow.drop baseY) 1 k
    let uPack := fun k => f32x8Lane (uRow.drop baseUV) 2 k - 128
    let vPack := fun k => f32x8Lane (vRow.drop baseUV) 2 k - 128
    let rPack := fun k => fmaF32 (vPack k) c1402 (yPack k)
    let gPack := fun k => fmaF32 (vPack k) (-c0714) (fmaF32 (uPack k) (-c0344) (yPack k))
    let bPack := fun k => fmaF32 (uPack k) c1772 (yPack k)
    .ok (scatterLoop (fun k => clampTruncU8 (rPack k)) (fun k => clampTruncU8 (gPack k))
      (fun k => clampTruncU8 (bPack k)) baseTgt 0 8 t)

/-- Batch loop of write_rgb8_f32x8_row: n batches left, advancing base_y
by 8, base_uv by 4 and base_tgt by 24 per batch. -/
def rowLoop (yRow uRow vRow : List ℕ) : ℕ → ℕ → ℕ → ℕ → List ℕ → Except (List ℕ) (List ℕ)
  | _, _, _, 0, t => .ok t
  | baseY, baseUV, baseTgt, n + 1, t =>
    match rowBatchStep yRow uRow vRow baseY baseUV baseTgt t with
    | .error t => .error t
    | .ok t => rowLoop yRow uRow vRow (baseY + 8) (baseUV + 4) (baseTgt + 24) n t

/-- write_rgb8_f32x8_row (yuv2rgb.rs lines 103-159): asserts on the row
geometry (in source order), then processes the row in ceil(width / 8)
batches of 8 pixels, the iteration count of (0..width).step_by(8). -/
def write_rgb8_f32x8_row (yRow uRow vRow : List ℕ) (width : ℕ) (target : List ℕ) :
    Except (List ℕ) (List ℕ) :=
  if yRow.length ≠ uRow.length * 2 then .error target
  else if yRow.length ≠ vRow.length * 2 then .error target
  else if yRow.length % 8 ≠ 0 then .error target
  else if uRow.length % 4 ≠ 0 then .error target
  else if vRow.length % 4 ≠ 0 then .error target
  else if target.length % 24 ≠ 0 then .error target
  else rowLoop yRow uRow vRow 0 0 0 ((width + 7) / 8) target

/-- The Rust slice p[base..base + len]. -/
def sliceRow (p : List ℕ) (base len : ℕ) : List ℕ := (p.drop base).take len

/-- Writing back a mutated row slice: in Rust the row windows alias the
target buffer, so a kernel call mutates target[base..base + len] in
place. -/
def splice (t : List ℕ) (base len : ℕ) (row : List ℕ) : List ℕ :=
  t.take base ++ row ++ t.drop (base + len)

/-- Row-pair loop of write_rgb8_f32x8 (yuv2rgb.rs lines 72-96): for each
chroma row y, slice the two chroma rows (length = stride each), the first
luma row and the first target row, run the row kernel, then the second
luma and target row, run the kernel again.  Each slice panics if out of
bounds; a kernel panic propagates with the partially mutated row spliced
back (the Rust slices alias the buffer). -/
def driverLoop (yP uP vP : List ℕ) (w s0 s1 s2 : ℕ) :
    ℕ → ℕ → List ℕ → Except (List ℕ) (List ℕ)
  | _, 0, t => .ok t
  | y, m + 1, t =>
    let baseU := y * s1
    if uP.length < baseU + s1 then .error t
    else
      let uRow := sliceRow uP baseU s1
      let baseV := y * s2
      if vP.length < baseV + s2 then .error t
      else
        let vRow := sliceRow vP baseV s2
        let baseY := 2 * y * s0
        if yP.length < baseY + s0 then .error t
        else
          let yRow := sliceRow yP baseY s0
          let baseTgt := 2 * y * (3 * w)
          if t.length < baseTgt + 3 * w then .error t
          else
            match write_rgb8_f32x8_row yRow uRow vRow w (sliceRow t baseTgt (3 * w)) with
            | .error rt => .error (splice t baseTgt (3 * w) rt)
            | .ok rt =>
              let t1 := splice t baseTgt (3 * w) rt
              let baseY2 := (2 * y + 1) * s0
              if yP.length < baseY2 + s0 then .error t1
              else
                let yRow2 := sliceRow yP baseY2 s0
                let baseTgt2 := (2 * y + 1) * (3 * w)
                if t1.length < baseTgt2 + 3 * w then .error t1
                else
                  match write_rgb8_f32x8_row yRow2 uRow vRow w
                      (sliceRow t1 baseTgt2 (3 * w)) with
                  | .error rt2 => .error (splice t1 baseTgt2 (3 * w) rt2)
                  | .ok rt2 =>
                    driverLoop yP uP vP w s0 s1 s2 (y + 1) m
                      (splice t1 baseTgt2 (3 * w) rt2)

/-- write_rgb8_f32x8 (yuv2rgb.rs lines 54-97): the three up-front asserts
(in source order), then dim.1 / 2 row-pair iterations. -/
def write_rgb8_f32x8 (yP uP vP : List ℕ) (dim : ℕ × ℕ) (strides : ℕ × ℕ × ℕ)
    (target : List ℕ) : Except (List ℕ) (List ℕ) :=
  if yP.length ≠ uP.length * 4 then .error target
  else if yP.length ≠ vP.length * 4 then .error target
  else if dim.1 % 8 ≠ 0 then .error target
  else driverLoop yP uP vP dim.1 strides.1 strides.2.1 strides.2.2 0 (dim.2 / 2) target

/-- One output channel as a function of the sample triple: c = 0 is R,
c = 1 is G, anything else is B. -/
def chan (c yv uv vv : ℕ) : ℕ :=
  if c = 0 then rgbR yv vv else if c = 1 then rgbG yv uv vv else rgbB yv uv

/-- The byte the converters write for channel c of pixel (x, y): both
paths read Y at y*stride_y + x and share the chroma sample of the 2x2
block, at (y/2)*stride + x/2. -/
def pixelByte (yP uP vP : List ℕ) (s0 s1 s2 y x c : ℕ) : ℕ :=
  chan c (yP.getD (y * s0 + x) 0) (uP.getD (y / 2 * s1 + x / 2) 0)
    (vP.getD (y / 2 * s2 + x / 2) 0)

/-- The byte written at target index i (i < width*height*3): pixel i / 3
in row-major order, channel i % 3. -/
def outByte (yP uP vP : List ℕ) (w s0 s1 s2 i : ℕ) : ℕ :=
  pixelByte yP uP vP s0 s1 s2 (i / 3 / w) (i / 3 % w) (i % 3)

/-- The byte the row kernel writes at row-local target index j: pixel j / 3
in the row, channel j % 3, luma from yRow[j / 3], chroma shared per pixel
pair from uRow and vRow at (j / 3) / 2. -/
def rowByte (yRow uRow vRow : List ℕ) (j : ℕ) : ℕ :=
  chan (j % 3) (yRow.getD (j / 3) 0) (uRow.getD (j / 3 / 2) 0) (vRow.getD (j / 3 / 2) 0)

/-- The full contents of the target buffer after a successful conversion:
the first width*height*3 bytes hold the image, the rest keeps its previous
value. -/
def rgbImage (yP uP vP : List ℕ) (w h s0 s1 s2 : ℕ) (target : List ℕ) : List ℕ :=
  (List.range target.length).map fun i =>
    if i < w * h * 3 then outByte yP uP vP w s0 s1 s2 i else target.getD i 0

/-- A call geometry on which the scalar converter stays in bounds: even
height, strides at least the logical row widths, planes covering all their
rows, target at least width*height*3 bytes. -/
def ScalarValid (yP uP vP : List ℕ) (w h s0 s1 s2 tlen : ℕ) : Prop :=
  h % 2 = 0 ∧ w ≤ s0 ∧ w ≤ 2 * s1 ∧ w ≤ 2 * s2 ∧ h * s0 ≤ yP.length ∧
    h / 2 * s1 ≤ uP.length ∧ h / 2 * s2 ≤ vP.length ∧ w * h * 3 ≤ tlen

instance (yP uP vP : List ℕ) (w h s0 s1 s2 tlen : ℕ) :
    Decidable (ScalarValid yP uP vP w h s0 s1 s2 tlen) := by
  unfold ScalarValid; infer_instance

/-- A call geometry on which the vectorized converter additionally passes
all its asserts: width a multiple of the lane width, luma stride twice
each chroma stride and itself a multiple of 8, full-frame plane length
ratios. -/
def SimdValid (yP uP vP : List ℕ) (w h s0 s1 s2 tlen : ℕ) : Prop :=
  ScalarValid yP uP vP w h s0 s1 s2 tlen ∧ w % 8 = 0 ∧ s0 = s1 * 2 ∧ s0 = s2 * 2 ∧
    s0 % 8 = 0 ∧ yP.length = uP.length * 4 ∧ yP.length = vP.length * 4

instance (yP uP vP : List ℕ) (w h s0 s1 s2 tlen : ℕ) :
    Decidable (SimdValid yP uP vP w h s0 s1 s2 tlen) := by
  unfold SimdValid; infer_instance

/-! ### Buffer access lemmas -/

lemma getD_eq_getElem? (l : List ℕ) (i : ℕ) : l.getD i 0 = l[i]?.getD 0 :=
  List.getD_eq_getElem?_getD l i 0

lemma getD_beyond (l : List ℕ) (i : ℕ) (h : l.length ≤ i) : l.getD i 0 = 0 := by
  rw [getD_eq_getElem?, List.getElem?_eq_none h, Option.getD_none]

lemma getD_set (l : List ℕ) (k v i : ℕ) :
    (l.set k v).getD i 0 = if i = k ∧ k < l.length then v else l.getD i 0 := by
  rw [getD_eq_getElem?, getD_eq_getElem?, List.getElem?_set]
  by_cases hk : k = i
  · subst hk
    by_cases hl : k < l.length
    · simp [hl]
    · simp [hl, List.getElem?_eq_none (by omega : l.length ≤ k)]
  · rw [if_neg hk, if_neg fun h => hk h.1.symm]

lemma ext_getD (l1 l2 : List ℕ) (hlen : l1.length = l2.length)
    (h : ∀ i, l1.getD i 0 = l2.getD i 0) : l1 = l2 := by
  refine List.ext_getElem hlen fun n h1 h2 => ?_
  have hn := h n
  rwa [getD_eq_getElem?, getD_eq_getElem?, List.getElem?_eq_getElem h1,
    List.getElem?_eq_getElem h2, Option.getD_some, Option.getD_some] at hn

lemma getD_drop (l : List ℕ) (n i : ℕ) : (l.drop n).getD i 0 = l.getD (n + i) 0 := by
  rw [getD_eq_getElem?, getD_eq_getElem?, List.getElem?_drop]

lemma length_rgbImage (yP uP vP : List ℕ) (w h s0 s1 s2 : ℕ) (t : List ℕ) :
    (rgbImage yP uP vP w h s0 s1 s2 t).length = t.length := by
  simp [rgbImage]

lemma getD_rgbImage (yP uP vP : List ℕ) (w h s0 s1 s2 : ℕ) (t : List ℕ) (i : ℕ)
    (hi : i < t.length) :
    (rgbImage yP uP vP w h s0 s1 s2 t).getD i 0 =
      if i < w * h * 3 then outByte yP uP vP w s0 s1 s2 i else t.getD i 0 := by
  rw [getD_eq_getElem?]
  unfold rgbImage
  rw [List.getElem?_map, List.getElem?_range hi]
  rfl

lemma length_sliceRow (p : List ℕ) (base len : ℕ) (h : base + len ≤ p.length) :
    (sliceRow p base len).length = len := by
  simp only [sliceRow, List.length_take, List.length_drop]
  omega

lemma getD_sliceRow (p : List ℕ) (base len i : ℕ) (hi : i < len) :
    (sliceRow p base len).getD i 0 = p.getD (base + i) 0 := by
  unfold sliceRow
  rw [getD_eq_getElem?, getD_eq_getElem?, List.getElem?_take, if_pos hi, List.getElem?_drop]

lemma length_splice (t row : List ℕ) (base len : ℕ) (hrow : row.length = len)
    (hb : base + len ≤ t.length) :
    (splice t base len row).length = t.length := by
  simp only [splice, List.length_append, List.length_take, List.length_drop]
  omega

lemma getD_splice (t row : List ℕ) (base len i : ℕ) (hrow : row.length = len)
    (hb : base + len ≤ t.length) :
    (splice t base len row).getD i 0 =
      if base ≤ i ∧ i < base + len then row.getD (i - base) 0 else t.getD i 0 := by
  have htake : (t.take base).length = base := by
    simp only [List.length_take]; omega
  have houter : (t.take base ++ row).length = base + len := by
    simp only [List.length_append, htake, hrow]
  unfold splice
  rw [getD_eq_getElem?, List.getElem?_append, houter]
  by_cases h2 : i < base + len
  · rw [if_pos h2, List.getElem?_append, htake]
    by_cases h1 : i < base
    · rw [if_pos h1, if_neg (by omega), List.getElem?_take, if_pos h1, getD_eq_getElem?]
    · rw [if_neg h1, if_pos (by omega), getD_eq_getElem?]
  · rw [if_neg h2, if_neg (by omega), List.getElem?_drop, getD_eq_getElem?]
    congr 2
    omega

/-! ### The SIMD clamp-truncate pipeline equals the scalar saturating cast -/

lemma clampTruncU8_eq_satU8 (x : ℚ) : clampTruncU8 x = satU8 x := by
  unfold clampTruncU8 satU8
  by_cases hx : x < 0
  · rw [min_eq_right (le_of_lt (lt_of_lt_of_le hx (by norm_num))),
      max_eq_left (le_of_lt hx), if_pos hx]
    simp
  · push_neg at hx
    rw [max_eq_right (le_min (by norm_num) hx), if_neg (not_lt.2 hx)]
    have h0 : (0 : ℤ) ≤ ⌊x⌋ := Int.floor_nonneg.2 hx
    by_cases h3 : x ≤ 255
    · rw [min_eq_right h3]
      have hf : ⌊x⌋ ≤ 255 := by
        have h255 : ⌊x⌋ ≤ ⌊(255 : ℚ)⌋ := Int.floor_le_floor h3
        simpa using h255
      rw [Nat.mod_eq_of_lt (by omega), min_eq_right (by omega)]
    · push_neg at h3
      rw [min_eq_left (le_of_lt h3)]
      have hf : (255 : ℤ) ≤ ⌊x⌋ := by
        have h255 : ⌊(255 : ℚ)⌋ ≤ ⌊x⌋ := Int.floor_le_floor (le_of_lt h3)
        simpa using h255
      rw [min_eq_left (by omega)]
      have h255 : ⌊(255 : ℚ)⌋ = 255 := by norm_num
      rw [h255]
      rfl

lemma chan_zero (yv uv vv : ℕ) : chan 0 yv uv vv = rgbR yv vv := by
  simp [chan]

lemma chan_one (yv uv vv : ℕ) : chan 1 yv uv vv = rgbG yv uv vv := by
  simp [chan]

lemma chan_two (yv uv vv : ℕ) : chan 2 yv uv vv = rgbB yv uv := by
  simp [chan]

lemma lane_chanR (yv uv vv : ℕ) :
    clampTruncU8 (fmaF32 ((vv : ℚ) - 128) c1402 (yv : ℚ)) = chan 0 yv uv vv := by
  rw [clampTruncU8_eq_satU8, chan_zero]
  unfold rgbR fmaF32
  rw [mul_comm c1402 ((vv : ℚ) - 128)]

lemma lane_chanG (yv uv vv : ℕ) :
    clampTruncU8 (fmaF32 ((vv : ℚ) - 128) (-c0714)
      (fmaF32 ((uv : ℚ) - 128) (-c0344) (yv : ℚ))) = chan 1 yv uv vv := by
  rw [clampTruncU8_eq_satU8, chan_one]
  unfold rgbG fmaF32
  have e1 : c0344 * -((uv : ℚ) - 128) = ((uv : ℚ) - 128) * -c0344 := by ring
  have e2 : c0714 * -((vv : ℚ) - 128) = ((vv : ℚ) - 128) * -c0714 := by ring
  rw [e1, e2]

lemma lane_chanB (yv uv vv : ℕ) :
    clampTruncU8 (fmaF32 ((uv : ℚ) - 128) c1772 (yv : ℚ)) = chan 2 yv uv vv := by
  rw [clampTruncU8_eq_satU8, chan_two]
  unfold rgbB fmaF32
  rw [mul_comm c1772 ((uv : ℚ) - 128)]

/-! ### Decoding target indices back to pixels -/

lemma outByte_decode (yP uP vP : List ℕ) (w s0 s1 s2 y x c : ℕ) (hx : x < w) (hc : c < 3) :
    outByte yP uP vP w s0 s1 s2 ((y * w + x) * 3 + c) = pixelByte yP uP vP s0 s1 s2 y x c := by
  have hw : 0 < w := lt_of_le_of_lt (Nat.zero_le x) hx
  unfold outByte
  have e1 : ((y * w + x) * 3 + c) / 3 = y * w + x := by
    set A := y * w + x with hA
    omega
  have e2 : ((y * w + x) * 3 + c) % 3 = c := by
    set A := y * w + x with hA
    omega
  rw [e1, e2, mul_comm y w, Nat.mul_add_div hw, Nat.mul_add_mod,
    Nat.div_eq_of_lt hx, Nat.mod_eq_of_lt hx, Nat.add_zero]

lemma getD_set3 (t : List ℕ) (B r g b i : ℕ) (hB : B + 3 ≤ t.length) :
    (((t.set B r).set (B + 1) g).set (B + 2) b).getD i 0 =
      if i = B then r else if i = B + 1 then g else if i = B + 2 then b else t.getD i 0 := by
  rw [getD_set, getD_set, getD_set]
  simp only [List.length_set]
  by_cases h0 : i = B
  · subst h0
    rw [if_neg (by omega), if_neg (by omega), if_pos ⟨rfl, by omega⟩, if_pos rfl]
  · by_cases h1 : i = B + 1
    · subst h1
      rw [if_neg (by omega), if_pos ⟨rfl, by omega⟩, if_neg h0, if_pos rfl]
    · by_cases h2 : i = B + 2
      · subst h2
        rw [if_pos ⟨rfl, by omega⟩, if_neg h0, if_neg h1, if_pos rfl]
      · rw [if_neg (by omega), if_neg (by omega), if_neg (by omega), if_neg h0, if_neg h1,
          if_neg h2]

/-! ### Specification of the scalar converter -/

lemma scalarRowLoop_spec (yP uP vP : List ℕ) (w s0 s1 s2 y : ℕ)
    (hY : ∀ x, x < w → y * s0 + x < yP.length)
    (hU : ∀ x, x < w → y / 2 * s1 + x / 2 < uP.length)
    (hV : ∀ x, x < w → y / 2 * s2 + x / 2 < vP.length) :
    ∀ n x t, x + n ≤ w → (y * w + x + n) * 3 ≤ t.length →
      ∃ t2, scalarRowLoop yP uP vP w s0 s1 s2 y x n t = .ok t2 ∧
        t2.length = t.length ∧
        ∀ i, t2.getD i 0 =
          if (y * w + x) * 3 ≤ i ∧ i < (y * w + x + n) * 3
          then outByte yP uP vP w s0 s1 s2 i else t.getD i 0 := by
  intro n
  induction n with
  | zero =>
    intro x t hxw ht
    exact ⟨t, rfl, rfl, fun i => by rw [if_neg (by omega)]⟩
  | succ n ih =>
    intro x t hxw ht
    have hx : x < w := by omega
    have hT3 : ¬ t.length < (y * w + x) * 3 + 3 := by omega
    have hYb : ¬ yP.length ≤ y * s0 + x := by have := hY x hx; omega
    have hUb : ¬ uP.length ≤ y / 2 * s1 + x / 2 := by have := hU x hx; omega
    have hVb : ¬ vP.length ≤ y / 2 * s2 + x / 2 := by have := hV x hx; omega
    have hstep : scalarPixelStep yP uP vP w s0 s1 s2 y x t =
        .ok (((t.set ((y * w + x) * 3)
            (rgbR (yP.getD (y * s0 + x) 0) (vP.getD (y / 2 * s2 + x / 2) 0))).set
          ((y * w + x) * 3 + 1)
            (rgbG (yP.getD (y * s0 + x) 0) (uP.getD (y / 2 * s1 + x / 2) 0)
              (vP.getD (y / 2 * s2 + x / 2) 0))).set
          ((y * w + x) * 3 + 2)
            (rgbB (yP.getD (y * s0 + x) 0) (uP.getD (y / 2 * s1 + x / 2) 0))) := by
      simp only [scalarPixelStep, if_neg hT3, if_neg hYb, if_neg hUb, if_neg hVb]
    obtain ⟨t2, hrun, hlen, hchar⟩ := ih (x + 1)
      (((t.set ((y * w + x) * 3)
          (rgbR (yP.getD (y * s0 + x) 0) (vP.getD (y / 2 * s2 + x / 2) 0))).set
        ((y * w + x) * 3 + 1)
          (rgbG (yP.getD (y * s0 + x) 0) (uP.getD (y / 2 * s1 + x / 2) 0)
            (vP.getD (y / 2 * s2 + x / 2) 0))).set
        ((y * w + x) * 3 + 2)
          (rgbB (yP.getD (y * s0 + x) 0) (uP.getD (y / 2 * s1 + x / 2) 0)))
      (by omega) (by simp only [List.length_set]; omega)
    refine ⟨t2, ?_, ?_, ?_⟩
    · rw [scalarRowLoop, hstep]
      exact hrun
    · rw [hlen]
      simp only [List.length_set]
    · intro i
      rw [hchar i]
      by_cases hrec : (y * w + (x + 1)) * 3 ≤ i ∧ i < (y * w + (x + 1) + n) * 3
      · rw [if_pos hrec, if_pos (by omega)]
      · rw [if_neg hrec, getD_set3 t _ _ _ _ i (by omega)]
        by_cases h0 : i = (y * w + x) * 3
        · subst h0
          have hd := outByte_decode yP uP vP w s0 s1 s2 y x 0 hx (by omega)
          rw [Nat.add_zero] at hd
          rw [if_pos rfl, if_pos (by omega), hd]
          unfold pixelByte
          rw [chan_zero]
        · rw [if_neg h0]
          by_cases h1 : i = (y * w + x) * 3 + 1
          · subst h1
            have hd := outByte_decode yP uP vP w s0 s1 s2 y x 1 hx (by omega)
            rw [if_pos rfl, if_pos (by omega), hd]
            unfold pixelByte
            rw [chan_one]
          · rw [if_neg h1]
            by_cases h2 : i = (y * w + x) * 3 + 2
            · subst h2
              have hd := outByte_decode yP uP vP w s0 s1 s2 y x 2 hx (by omega)
              rw [if_pos rfl, if_pos (by omega), hd]
              unfold pixelByte
              rw [chan_two]
            · rw [if_neg h2, if_neg (by omega)]

lemma scalarColLoop_spec (yP uP vP : List ℕ) (w s0 s1 s2 h : ℕ)
    (hY : ∀ y x, y < h → x < w → y * s0 + x < yP.length)
    (hU : ∀ y x, y < h → x < w → y / 2 * s1 + x / 2 < uP.length)
    (hV : ∀ y x, y < h → x < w → y / 2 * s2 + x / 2 < vP.length) :
    ∀ m y t, y + m ≤ h → (y + m) * w * 3 ≤ t.length →
      ∃ t2, scalarColLoop yP uP vP w s0 s1 s2 y m t = .ok t2 ∧
        t2.length = t.length ∧
        ∀ i, t2.getD i 0 =
          if y * w * 3 ≤ i ∧ i < (y + m) * w * 3
          then outByte yP uP vP w s0 s1 s2 i else t.getD i 0 := by
  intro m
  induction m with
  | zero =>
    intro y t hyh ht
    refine ⟨t, rfl, rfl, fun i => ?_⟩
    have e0 : (y + 0) * w * 3 = y * w * 3 := by ring
    rw [if_neg (by omega)]
  | succ m ih =>
    intro y t hyh ht
    have hy : y < h := by omega
    have e1 : (y * w + 0 + w) * 3 = (y + 1) * w * 3 := by ring
    have e2 : (y + (m + 1)) * w * 3 = (y + 1) * w * 3 + m * (w * 3) := by ring
    have e3 : (y + 1 + m) * w * 3 = (y + 1) * w * 3 + m * (w * 3) := by ring
    have e4 : (y * w + 0) * 3 = y * w * 3 := by ring
    obtain ⟨t1, hrun1, hlen1, hchar1⟩ := scalarRowLoop_spec yP uP vP w s0 s1 s2 y
      (fun x hx => hY y x hy hx) (fun x hx => hU y x hy hx) (fun x hx => hV y x hy hx)
      w 0 t (by omega) (by omega)
    obtain ⟨t2, hrun2, hlen2, hchar2⟩ := ih (y + 1) t1 (by omega) (by omega)
    refine ⟨t2, ?_, by rw [hlen2, hlen1], ?_⟩
    · rw [scalarColLoop, hrun1]
      exact hrun2
    · intro i
      rw [hchar2 i, hchar1 i]
      by_cases hrec : (y + 1) * w * 3 ≤ i ∧ i < (y + 1 + m) * w * 3
      · rw [if_pos hrec, if_pos (by omega)]
      · rw [if_neg hrec]
        by_cases hrow : (y * w + 0) * 3 ≤ i ∧ i < (y * w + 0 + w) * 3
        · rw [if_pos hrow, if_pos (by omega)]
        · rw [if_neg hrow, if_neg (by omega)]

lemma write_rgb8_scalar_spec (yP uP vP : List ℕ) (w h s0 s1 s2 : ℕ) (target : List ℕ)
    (hY : ∀ y x, y < h → x < w → y * s0 + x < yP.length)
    (hU : ∀ y x, y < h → x < w → y / 2 * s1 + x / 2 < uP.length)
    (hV : ∀ y x, y < h → x < w → y / 2 * s2 + x / 2 < vP.length)
    (hT : w * h * 3 ≤ target.length) :
    write_rgb8_scalar yP uP vP (w, h) (s0, s1, s2) target =
      .ok (rgbImage yP uP vP w h s0 s1 s2 target) := by
  have e : (0 + h) * w * 3 = w * h * 3 := by ring
  obtain ⟨t2, hrun, hlen, hchar⟩ := scalarColLoop_spec yP uP vP w s0 s1 s2 h hY hU hV
    h 0 target (by omega) (by omega)
  show scalarColLoop yP uP vP w s0 s1 s2 0 h target = _
  rw [hrun]
  congr 1
  refine ext_getD t2 _ (by rw [hlen, length_rgbImage]) fun i => ?_
  rw [hchar i]
  by_cases hi : i < target.length
  · rw [getD_rgbImage yP uP vP w h s0 s1 s2 target i hi]
    by_cases hlt : i < w * h * 3
    · rw [if_pos (by omega), if_pos hlt]
    · rw [if_neg (by omega), if_neg hlt]
  · rw [if_neg (by omega), getD_beyond target i (by omega),
      getD_beyond _ i (by rw [length_rgbImage]; omega)]

/-! ### Specification of the SIMD row kernel -/

lemma f32x8Lane_luma (row : List ℕ) (base k : ℕ) :
    f32x8Lane (row.drop base) 1 k = (row.getD (base + k) 0 : ℚ) := by
  unfold f32x8Lane
  rw [Nat.div_one, getD_drop]

lemma f32x8Lane_chroma (row : List ℕ) (base k : ℕ) :
    f32x8Lane (row.drop base) 2 k = (row.getD (base + k / 2) 0 : ℚ) := by
  unfold f32x8Lane
  rw [getD_drop]

lemma scatterLoop_spec (r g b : ℕ → ℕ) (baseTgt : ℕ) :
    ∀ n j t, baseTgt + 3 * (j + n) ≤ t.length →
      (scatterLoop r g b baseTgt j n t).length = t.length ∧
      ∀ i, (scatterLoop r g b baseTgt j n t).getD i 0 =
        if baseTgt + 3 * j ≤ i ∧ i < baseTgt + 3 * (j + n) then
          (if (i - baseTgt) % 3 = 0 then r ((i - baseTgt) / 3)
           else if (i - baseTgt) % 3 = 1 then g ((i - baseTgt) / 3)
           else b ((i - baseTgt) / 3))
        else t.getD i 0 := by
  intro n
  induction n with
  | zero =>
    intro j t hb
    rw [scatterLoop]
    exact ⟨rfl, fun i => by rw [if_neg (by omega)]⟩
  | succ n ih =>
    intro j t hb
    obtain ⟨hlen, hchar⟩ := ih (j + 1) (((t.set (baseTgt + 3 * j) (r j)).set
      (baseTgt + 3 * j + 1) (g j)).set (baseTgt + 3 * j + 2) (b j))
      (by simp only [List.length_set]; omega)
    rw [scatterLoop]
    refine ⟨by rw [hlen]; simp only [List.length_set], fun i => ?_⟩
    rw [hchar i]
    by_cases hrec : baseTgt + 3 * (j + 1) ≤ i ∧ i < baseTgt + 3 * (j + 1 + n)
    · rw [if_pos hrec,
        if_pos (show baseTgt + 3 * j ≤ i ∧ i < baseTgt + 3 * (j + (n + 1)) by omega)]
    · rw [if_neg hrec, getD_set3 t _ _ _ _ i (by omega)]
      by_cases h0 : i = baseTgt + 3 * j
      · subst h0
        rw [if_pos rfl, if_pos (by omega)]
        have e : baseTgt + 3 * j - baseTgt = 3 * j := by omega
        rw [e, if_pos (show 3 * j % 3 = 0 by omega),
          show 3 * j / 3 = j by omega]
      · rw [if_neg h0]
        by_cases h1 : i = baseTgt + 3 * j + 1
        · subst h1
          rw [if_pos rfl, if_pos (by omega)]
          have e : baseTgt + 3 * j + 1 - baseTgt = 3 * j + 1 := by omega
          rw [e, if_neg (show ¬ (3 * j + 1) % 3 = 0 by omega),
            if_pos (show (3 * j + 1) % 3 = 1 by omega),
            show (3 * j + 1) / 3 = j by omega]
        · rw [if_neg h1]
          by_cases h2 : i = baseTgt + 3 * j + 2
          · subst h2
            rw [if_pos rfl, if_pos (by omega)]
            have e : baseTgt + 3 * j + 2 - baseTgt = 3 * j + 2 := by omega
            rw [e, if_neg (show ¬ (3 * j + 2) % 3 = 0 by omega),
              if_neg (show ¬ (3 * j + 2) % 3 = 1 by omega),
              show (3 * j + 2) / 3 = j by omega]
          · rw [if_neg h2, if_neg (by omega)]

lemma rowLoop_spec (yRow uRow vRow : List ℕ) :
    ∀ n b t, 8 * (b + n) ≤ yRow.length → 4 * (b + n) ≤ uRow.length →
      4 * (b + n) ≤ vRow.length → 24 * (b + n) ≤ t.length →
      ∃ t2, rowLoop yRow uRow vRow (8 * b) (4 * b) (24 * b) n t = .ok t2 ∧
        t2.length = t.length ∧
        ∀ i, t2.getD i 0 =
          if 24 * b ≤ i ∧ i < 24 * (b + n) then rowByte yRow uRow vRow i
          else t.getD i 0 := by
  intro n
  induction n with
  | zero =>
    intro b t h1 h2 h3 h4
    rw [rowLoop]
    exact ⟨t, rfl, rfl, fun i => by rw [if_neg (by omega)]⟩
  | succ n ih =>
    intro b t hYL hUL hVL hTL
    have c1 : ¬ t.length < 24 * b + 24 := by omega
    have c2 : ¬ yRow.length < 8 * b + 8 := by omega
    have c3 : ¬ uRow.length < 4 * b + 4 := by omega
    have c4 : ¬ vRow.length < 4 * b + 4 := by omega
    have hstep : rowBatchStep yRow uRow vRow (8 * b) (4 * b) (24 * b) t =
        .ok (scatterLoop
          (fun k => clampTruncU8 (fmaF32 (f32x8Lane (vRow.drop (4 * b)) 2 k - 128) c1402
            (f32x8Lane (yRow.drop (8 * b)) 1 k)))
          (fun k => clampTruncU8 (fmaF32 (f32x8Lane (vRow.drop (4 * b)) 2 k - 128) (-c0714)
            (fmaF32 (f32x8Lane (uRow.drop (4 * b)) 2 k - 128) (-c0344)
              (f32x8Lane (yRow.drop (8 * b)) 1 k))))
          (fun k => clampTruncU8 (fmaF32 (f32x8Lane (uRow.drop (4 * b)) 2 k - 128) c1772
            (f32x8Lane (yRow.drop (8 * b)) 1 k)))
          (24 * b) 0 8 t) := by
      simp only [rowBatchStep, if_neg c1, if_neg c2, if_neg c3, if_neg c4]
    obtain ⟨slen, schar⟩ := scatterLoop_spec
      (fun k => clampTruncU8 (fmaF32 (f32x8Lane (vRow.drop (4 * b)) 2 k - 128) c1402
        (f32x8Lane (yRow.drop (8 * b)) 1 k)))
      (fun k => clampTruncU8 (fmaF32 (f32x8Lane (vRow.drop (4 * b)) 2 k - 128) (-c0714)
        (fmaF32 (f32x8Lane (uRow.drop (4 * b)) 2 k - 128) (-c0344)
          (f32x8Lane (yRow.drop (8 * b)) 1 k))))
      (fun k => clampTruncU8 (fmaF32 (f32x8Lane (uRow.drop (4 * b)) 2 k - 128) c1772
        (f32x8Lane (yRow.drop (8 * b)) 1 k)))
      (24 * b) 8 0 t (by omega)
    obtain ⟨t2, hrun, hlen, hchar⟩ := ih (b + 1)
      (scatterLoop
        (fun k => clampTruncU8 (fmaF32 (f32x8Lane (vRow.drop (4 * b)) 2 k - 128) c1402
          (f32x8Lane (yRow.drop (8 * b)) 1 k)))
        (fun k => clampTruncU8 (fmaF32 (f32x8Lane (vRow.drop (4 * b)) 2 k - 128) (-c0714)
          (fmaF32 (f32x8Lane (uRow.drop (4 * b)) 2 k - 128) (-c0344)
            (f32x8Lane (yRow.drop (8 * b)) 1 k))))
        (fun k => clampTruncU8 (fmaF32 (f32x8Lane (uRow.drop (4 * b)) 2 k - 128) c1772
          (f32x8Lane (yRow.drop (8 * b)) 1 k)))
        (24 * b) 0 8 t)
      (by omega) (by omega) (by omega) (by rw [slen]; omega)
    refine ⟨t2, ?_, by rw [hlen, slen], fun i => ?_⟩
    · rw [rowLoop, hstep]
      show rowLoop yRow uRow vRow (8 * b + 8) (4 * b + 4) (24 * b + 24) n _ = _
      rw [show 8 * b + 8 = 8 * (b + 1) by ring, show 4 * b + 4 = 4 * (b + 1) by ring,
        show 24 * b + 24 = 24 * (b + 1) by ring]
      exact hrun
    · rw [hchar i, schar i]
      by_cases hrec : 24 * (b + 1) ≤ i ∧ i < 24 * (b + 1 + n)
      · rw [if_pos hrec, if_pos (show 24 * b ≤ i ∧ i < 24 * (b + (n + 1)) by omega)]
      · rw [if_neg hrec]
        by_cases hbatch : 24 * b + 3 * 0 ≤ i ∧ i < 24 * b + 3 * (0 + 8)
        · rw [if_pos hbatch, if_pos (show 24 * b ≤ i ∧ i < 24 * (b + (n + 1)) by omega)]
          have ei3 : i / 3 = 8 * b + (i - 24 * b) / 3 := by omega
          have ei32 : i / 3 / 2 = 4 * b + (i - 24 * b) / 3 / 2 := by omega
          by_cases hc0 : (i - 24 * b) % 3 = 0
          · rw [if_pos hc0]
            have eim : i % 3 = 0 := by omega
            rw [f32x8Lane_chroma, f32x8Lane_luma,
              lane_chanR (yRow.getD (8 * b + (i - 24 * b) / 3) 0)
                (uRow.getD (4 * b + (i - 24 * b) / 3 / 2) 0)
                (vRow.getD (4 * b + (i - 24 * b) / 3 / 2) 0),
              rowByte, eim, ei32, ei3]
          · rw [if_neg hc0]
            by_cases hc1 : (i - 24 * b) % 3 = 1
            · rw [if_pos hc1]
              have eim : i % 3 = 1 := by omega
              rw [f32x8Lane_chroma, f32x8Lane_chroma, f32x8Lane_luma,
                lane_chanG (yRow.getD (8 * b + (i - 24 * b) / 3) 0)
                  (uRow.getD (4 * b + (i - 24 * b) / 3 / 2) 0)
                  (vRow.getD (4 * b + (i - 24 * b) / 3 / 2) 0),
                rowByte, eim, ei32, ei3]
            · rw [if_neg hc1]
              have eim : i % 3 = 2 := by omega
              rw [f32x8Lane_chroma, f32x8Lane_luma,
                lane_chanB (yRow.getD (8 * b + (i - 24 * b) / 3) 0)
                  (uRow.getD (4 * b + (i - 24 * b) / 3 / 2) 0)
                  (vRow.getD (4 * b + (i - 24 * b) / 3 / 2) 0),
                rowByte, eim, ei32, ei3]
        · rw [if_neg hbatch, if_neg (by omega)]

lemma write_rgb8_f32x8_row_spec (yRow uRow vRow : List ℕ) (w : ℕ) (t : List ℕ)
    (hyu : yRow.length = uRow.length * 2) (hyv : yRow.length = vRow.length * 2)
    (h8 : yRow.length % 8 = 0) (hw8 : w % 8 = 0) (hwy : w ≤ yRow.length)
    (htl : t.length = 3 * w) :
    ∃ t2, write_rgb8_f32x8_row yRow uRow vRow w t = .ok t2 ∧
      t2.length = t.length ∧
      ∀ i, t2.getD i 0 = if i < 3 * w then rowByte yRow uRow vRow i else t.getD i 0 := by
  have hu4 : uRow.length % 4 = 0 := by omega
  have hv4 : vRow.length % 4 = 0 := by omega
  have ht24 : t.length % 24 = 0 := by omega
  obtain ⟨t2, hrun, hlen, hchar⟩ := rowLoop_spec yRow uRow vRow (w / 8) 0 t
    (by omega) (by omega) (by omega) (by omega)
  simp only [Nat.mul_zero] at hrun
  refine ⟨t2, ?_, hlen, fun i => ?_⟩
  · unfold write_rgb8_f32x8_row
    rw [if_neg (not_not_intro hyu), if_neg (not_not_intro hyv), if_neg (not_not_intro h8),
      if_neg (not_not_intro hu4), if_neg (not_not_intro hv4), if_neg (not_not_intro ht24),
      show (w + 7) / 8 = w / 8 by omega]
    exact hrun
  · rw [hchar i]
    by_cases hi : i < 3 * w
    · rw [if_pos (by omega), if_pos hi]
    · rw [if_neg (by omega), if_neg hi]

lemma rowByte_slice_eq_outByte (yP uP vP : List ℕ) (w s0 s1 s2 y' cb j : ℕ)
    (hcb : y' / 2 = cb) (hj : j < 3 * w) (hws : w ≤ s0) (hs1 : s0 = s1 * 2)
    (hs2 : s0 = s2 * 2) (hYb : y' * s0 + s0 ≤ yP.length) (hUb : cb * s1 + s1 ≤ uP.length)
    (hVb : cb * s2 + s2 ≤ vP.length) :
    rowByte (sliceRow yP (y' * s0) s0) (sliceRow uP (cb * s1) s1)
      (sliceRow vP (cb * s2) s2) j = outByte yP uP vP w s0 s1 s2 (y' * (3 * w) + j) := by
  have hw : 0 < w := by omega
  have hx : j / 3 < w := by omega
  have hx2 : j / 3 / 2 < s1 := by omega
  have hx2v : j / 3 / 2 < s2 := by omega
  unfold rowByte
  rw [getD_sliceRow yP (y' * s0) s0 (j / 3) (by omega),
    getD_sliceRow uP (cb * s1) s1 (j / 3 / 2) hx2,
    getD_sliceRow vP (cb * s2) s2 (j / 3 / 2) hx2v]
  unfold outByte
  rw [show y' * (3 * w) = 3 * (y' * w) from by ring]
  have e3 : (3 * (y' * w) + j) / 3 = y' * w + j / 3 := by omega
  have em : (3 * (y' * w) + j) % 3 = j % 3 := by omega
  rw [e3, em, mul_comm y' w, Nat.mul_add_div hw, Nat.div_eq_of_lt hx, Nat.add_zero,
    Nat.mul_add_mod, Nat.mod_eq_of_lt hx]
  unfold pixelByte
  rw [hcb]

lemma driverLoop_spec (yP uP vP : List ℕ) (w s0 s1 s2 : ℕ)
    (hs1 : s0 = s1 * 2) (hs2 : s0 = s2 * 2) (hs08 : s0 % 8 = 0) (hw8 : w % 8 = 0)
    (hws : w ≤ s0) :
    ∀ m cy t, 2 * (cy + m) * s0 ≤ yP.length → (cy + m) * s1 ≤ uP.length →
      (cy + m) * s2 ≤ vP.length → 2 * (cy + m) * (3 * w) ≤ t.length →
      ∃ t2, driverLoop yP uP vP w s0 s1 s2 cy m t = .ok t2 ∧
        t2.length = t.length ∧
        ∀ i, t2.getD i 0 =
          if 2 * cy * (3 * w) ≤ i ∧ i < 2 * (cy + m) * (3 * w)
          then outByte yP uP vP w s0 s1 s2 i else t.getD i 0 := by
  intro m
  induction m with
  | zero =>
    intro cy t h1 h2 h3 h4
    rw [driverLoop]
    refine ⟨t, rfl, rfl, fun i => ?_⟩
    have e0 : 2 * (cy + 0) * (3 * w) = 2 * cy * (3 * w) := by ring
    rw [if_neg (by omega)]
  | succ m ih =>
    intro cy t hYL hUL hVL hTL
    have fY : 2 * (cy + (m + 1)) * s0 = 2 * cy * s0 + s0 + s0 + 2 * m * s0 := by ring
    have fY2 : (2 * cy + 1) * s0 = 2 * cy * s0 + s0 := by ring
    have fU : (cy + (m + 1)) * s1 = cy * s1 + s1 + m * s1 := by ring
    have fV : (cy + (m + 1)) * s2 = cy * s2 + s2 + m * s2 := by ring
    have fT : 2 * (cy + (m + 1)) * (3 * w) =
        2 * cy * (3 * w) + 3 * w + 3 * w + 2 * m * (3 * w) := by ring
    have fT2 : (2 * cy + 1) * (3 * w) = 2 * cy * (3 * w) + 3 * w := by ring
    have gY : 2 * (cy + 1 + m) * s0 = 2 * cy * s0 + s0 + s0 + 2 * m * s0 := by ring
    have gU : (cy + 1 + m) * s1 = cy * s1 + s1 + m * s1 := by ring
    have gV : (cy + 1 + m) * s2 = cy * s2 + s2 + m * s2 := by ring
    have gT : 2 * (cy + 1 + m) * (3 * w) =
        2 * cy * (3 * w) + 3 * w + 3 * w + 2 * m * (3 * w) := by ring
    have gT1 : 2 * (cy + 1) * (3 * w) = 2 * cy * (3 * w) + 3 * w + 3 * w := by ring
    have cU : ¬ uP.length < cy * s1 + s1 := by omega
    have cV : ¬ vP.length < cy * s2 + s2 := by omega
    have cY : ¬ yP.length < 2 * cy * s0 + s0 := by omega
    have cT : ¬ t.length < 2 * cy * (3 * w) + 3 * w := by omega
    have luR : (sliceRow uP (cy * s1) s1).length = s1 := length_sliceRow _ _ _ (by omega)
    have lvR : (sliceRow vP (cy * s2) s2).length = s2 := length_sliceRow _ _ _ (by omega)
    have lyR : (sliceRow yP (2 * cy * s0) s0).length = s0 :=
      length_sliceRow _ _ _ (by omega)
    have ltR : (sliceRow t (2 * cy * (3 * w)) (3 * w)).length = 3 * w :=
      length_sliceRow _ _ _ (by omega)
    obtain ⟨rt1, hr1, hl1, hc1⟩ := write_rgb8_f32x8_row_spec
      (sliceRow yP (2 * cy * s0) s0) (sliceRow uP (cy * s1) s1) (sliceRow vP (cy * s2) s2)
      w (sliceRow t (2 * cy * (3 * w)) (3 * w))
      (by rw [lyR, luR]; omega) (by rw [lyR, lvR]; omega) (by rw [lyR]; omega) hw8
      (by rw [lyR]; omega) ltR
    have hrt1len : rt1.length = 3 * w := by rw [hl1, ltR]
    have lt1 : (splice t (2 * cy * (3 * w)) (3 * w) rt1).length = t.length :=
      length_splice _ _ _ _ hrt1len (by omega)
    have cY2 : ¬ yP.length < (2 * cy + 1) * s0 + s0 := by omega
    have cT2 : ¬ (splice t (2 * cy * (3 * w)) (3 * w) rt1).length <
        (2 * cy + 1) * (3 * w) + 3 * w := by rw [lt1]; omega
    have lyR2 : (sliceRow yP ((2 * cy + 1) * s0) s0).length = s0 :=
      length_sliceRow _ _ _ (by omega)
    have ltR2 : (sliceRow (splice t (2 * cy * (3 * w)) (3 * w) rt1)
        ((2 * cy + 1) * (3 * w)) (3 * w)).length = 3 * w :=
      length_sliceRow _ _ _ (by rw [lt1]; omega)
    obtain ⟨rt2, hr2, hl2, hc2⟩ := write_rgb8_f32x8_row_spec
      (sliceRow yP ((2 * cy + 1) * s0) s0) (sliceRow uP (cy * s1) s1)
      (sliceRow vP (cy * s2) s2) w
      (sliceRow (splice t (2 * cy * (3 * w)) (3 * w) rt1) ((2 * cy + 1) * (3 * w)) (3 * w))
      (by rw [lyR2, luR]; omega) (by rw [lyR2, lvR]; omega) (by rw [lyR2]; omega) hw8
      (by rw [lyR2]; omega) ltR2
    have hrt2len : rt2.length = 3 * w := by rw [hl2, ltR2]
    have lt2 : (splice (splice t (2 * cy * (3 * w)) (3 * w) rt1) ((2 * cy + 1) * (3 * w))
        (3 * w) rt2).length = t.length := by
      rw [length_splice _ _ _ _ hrt2len (by rw [lt1]; omega), lt1]
    obtain ⟨t2, hrun, hlen, hchar⟩ := ih (cy + 1)
      (splice (splice t (2 * cy * (3 * w)) (3 * w) rt1) ((2 * cy + 1) * (3 * w)) (3 * w) rt2)
      (by omega) (by omega) (by omega) (by rw [lt2]; omega)
    refine ⟨t2, ?_, by rw [hlen, lt2], fun i => ?_⟩
    · simp only [driverLoop, if_neg cU, if_neg cV, if_neg cY, if_neg cT, hr1,
        if_neg cY2, if_neg cT2, hr2]
      exact hrun
    · rw [hchar i]
      by_cases hrec : 2 * (cy + 1) * (3 * w) ≤ i ∧ i < 2 * (cy + 1 + m) * (3 * w)
      · rw [if_pos hrec,
          if_pos (show 2 * cy * (3 * w) ≤ i ∧ i < 2 * (cy + (m + 1)) * (3 * w) by omega)]
      · rw [if_neg hrec,
          getD_splice _ _ _ _ _ hrt2len (by rw [lt1]; omega)]
        by_cases h2r : (2 * cy + 1) * (3 * w) ≤ i ∧ i < (2 * cy + 1) * (3 * w) + 3 * w
        · rw [if_pos h2r, hc2 (i - (2 * cy + 1) * (3 * w)), if_pos (by omega)]
          have hb2 := rowByte_slice_eq_outByte yP uP vP w s0 s1 s2 (2 * cy + 1) cy
            (i - (2 * cy + 1) * (3 * w)) (by omega) (by omega) hws hs1 hs2
            (by omega) (by omega) (by omega)
          rw [show (2 * cy + 1) * (3 * w) + (i - (2 * cy + 1) * (3 * w)) = i
            from by omega] at hb2
          rw [hb2,
            if_pos (show 2 * cy * (3 * w) ≤ i ∧ i < 2 * (cy + (m + 1)) * (3 * w) by omega)]
        · rw [if_neg h2r, getD_splice _ _ _ _ _ hrt1len (by omega)]
          by_cases h1r : 2 * cy * (3 * w) ≤ i ∧ i < 2 * cy * (3 * w) + 3 * w
          · rw [if_pos h1r, hc1 (i - 2 * cy * (3 * w)), if_pos (by omega)]
            have hb1 := rowByte_slice_eq_outByte yP uP vP w s0 s1 s2 (2 * cy) cy
              (i - 2 * cy * (3 * w)) (by omega) (by omega) hws hs1 hs2
              (by omega) (by omega) (by omega)
            rw [show 2 * cy * (3 * w) + (i - 2 * cy * (3 * w)) = i from by omega] at hb1
            rw [hb1,
              if_pos (show 2 * cy * (3 * w) ≤ i ∧ i < 2 * (cy + (m + 1)) * (3 * w) by omega)]
          · rw [if_neg h1r, if_neg (by omega)]

lemma write_rgb8_f32x8_spec (yP uP vP : List ℕ) (w h s0 s1 s2 : ℕ) (target : List ℕ)
    (hu4 : yP.length = uP.length * 4) (hv4 : yP.length = vP.length * 4)
    (hw8 : w % 8 = 0) (hh2 : h % 2 = 0) (hs1 : s0 = s1 * 2) (hs2 : s0 = s2 * 2)
    (hs08 : s0 % 8 = 0) (hws : w ≤ s0) (hYL : h * s0 ≤ yP.length)
    (hUL : h / 2 * s1 ≤ uP.length) (hVL : h / 2 * s2 ≤ vP.length)
    (hT : w * h * 3 ≤ target.length) :
    write_rgb8_f32x8 yP uP vP (w, h) (s0, s1, s2) target =
      .ok (rgbImage yP uP vP w h s0 s1 s2 target) := by
  have eh : 2 * (0 + h / 2) = h := by omega
  have eA : 2 * (0 + h / 2) * (3 * w) = w * h * 3 := by rw [eh]; ring
  have eB : 2 * 0 * (3 * w) = 0 := by ring
  obtain ⟨t2, hrun, hlen, hchar⟩ := driverLoop_spec yP uP vP w s0 s1 s2 hs1 hs2 hs08 hw8
    hws (h / 2) 0 target (by rw [eh]; exact hYL) (by simpa using hUL) (by simpa using hVL)
    (by omega)
  show (if yP.length ≠ uP.length * 4 then Except.error target
    else if yP.length ≠ vP.length * 4 then Except.error target
    else if w % 8 ≠ 0 then Except.error target
    else driverLoop yP uP vP w s0 s1 s2 0 (h / 2) target) = _
  rw [if_neg (not_not_intro hu4), if_neg (not_not_intro hv4), if_neg (not_not_intro hw8),
    hrun]
  congr 1
  refine ext_getD t2 _ (by rw [hlen, length_rgbImage]) fun i => ?_
  rw [hchar i]
  by_cases hi : i < target.length
  · rw [getD_rgbImage yP uP vP w h s0 s1 s2 target i hi]
    by_cases hlt : i < w * h * 3
    · rw [if_pos (by omega), if_pos hlt]
    · rw [if_neg (by omega), if_neg hlt]
  · rw [if_neg (by omega), getD_beyond target i (by omega),
      getD_beyond _ i (by rw [length_rgbImage]; omega)]

/-! ### Valid calls -/

lemma coverY (L w h s0 : ℕ) (hws : w ≤ s0) (hYL : h * s0 ≤ L) :
    ∀ y x, y < h → x < w → y * s0 + x < L := by
  intro y x hy hx
  have h1 : (y + 1) * s0 ≤ h * s0 := mul_le_mul_right' (by omega) s0
  have h2 : (y + 1) * s0 = y * s0 + s0 := by ring
  omega

lemma coverC (L w h s1 : ℕ) (hh2 : h % 2 = 0) (hws : w ≤ 2 * s1) (hUL : h / 2 * s1 ≤ L) :
    ∀ y x, y < h → x < w → y / 2 * s1 + x / 2 < L := by
  intro y x hy hx
  have h1 : (y / 2 + 1) * s1 ≤ h / 2 * s1 := mul_le_mul_right' (by omega) s1
  have h2 : (y / 2 + 1) * s1 = y / 2 * s1 + s1 := by ring
  omega

lemma scalar_spec_of_valid (yP uP vP : List ℕ) (w h s0 s1 s2 : ℕ) (target : List ℕ)
    (hv : ScalarValid yP uP vP w h s0 s1 s2 target.length) :
    write_rgb8_scalar yP uP vP (w, h) (s0, s1, s2) target =
      .ok (rgbImage yP uP vP w h s0 s1 s2 target) := by
  obtain ⟨hh2, hws, hwu, hwv, hYL, hUL, hVL, hT⟩ := hv
  exact write_rgb8_scalar_spec yP uP vP w h s0 s1 s2 target
    (coverY yP.length w h s0 hws hYL) (coverC uP.length w h s1 hh2 hwu hUL)
    (coverC vP.length w h s2 hh2 hwv hVL) hT

lemma simd_spec_of_valid (yP uP vP : List ℕ) (w h s0 s1 s2 : ℕ) (target : List ℕ)
    (hv : SimdValid yP uP vP w h s0 s1 s2 target.length) :
    write_rgb8_f32x8 yP uP vP (w, h) (s0, s1, s2) target =
      .ok (rgbImage yP uP vP w h s0 s1 s2 target) := by
  obtain ⟨⟨hh2, hws, hwu, hwv, hYL, hUL, hVL, hT⟩, hw8, hs1, hs2, hs08, hu4, hv4⟩ := hv
  exact write_rgb8_f32x8_spec yP uP vP w h s0 s1 s2 target hu4 hv4 hw8 hh2 hs1 hs2 hs08
    hws hYL hUL hVL hT

lemma outByte_index_bounds (w h i : ℕ) (hi : i < w * h * 3) :
    i / 3 / w < h ∧ i / 3 % w < w ∧ 0 < w := by
  have hw0 : 0 < w := by
    rcases Nat.eq_zero_or_pos w with hw | hw
    · subst hw
      omega
    · exact hw
  have h1 : i / 3 < w * h := by omega
  exact ⟨Nat.div_lt_of_lt_mul h1, Nat.mod_lt _ hw0, hw0⟩

/-- The byte at a target index inside the image region depends only on the
agreed sample prefixes of the planes: the first w samples of every luma
row and the first w / 2 samples of every chroma row. -/
lemma outByte_agree (yP uP vP yP2 uP2 vP2 : List ℕ) (w h s0 s1 s2 i : ℕ)
    (hh2 : h % 2 = 0) (hw2 : w % 2 = 0) (hi : i < w * h * 3)
    (hY : ∀ y, y < h → ∀ x, x < w → yP.getD (y * s0 + x) 0 = yP2.getD (y * s0 + x) 0)
    (hU : ∀ cy, cy < h / 2 → ∀ cx, cx < w / 2 →
      uP.getD (cy * s1 + cx) 0 = uP2.getD (cy * s1 + cx) 0)
    (hV : ∀ cy, cy < h / 2 → ∀ cx, cx < w / 2 →
      vP.getD (cy * s2 + cx) 0 = vP2.getD (cy * s2 + cx) 0) :
    outByte yP uP vP w s0 s1 s2 i = outByte yP2 uP2 vP2 w s0 s1 s2 i := by
  obtain ⟨hyh, hxw, hw0⟩ := outByte_index_bounds w h i hi
  unfold outByte pixelByte
  rw [hY (i / 3 / w) hyh (i / 3 % w) hxw,
    hU (i / 3 / w / 2) (by omega) (i / 3 % w / 2) (by omega),
    hV (i / 3 / w / 2) (by omega) (i / 3 % w / 2) (by omega)]

/-- With chroma planes constant 128 at every sampled position and the luma
plane constant at every sampled position, every image byte is the channel
function applied to the constant triple. -/
lemma outByte_const (yP uP vP : List ℕ) (w h s0 s1 s2 i yc : ℕ)
    (hh2 : h % 2 = 0) (hw2 : w % 2 = 0) (hi : i < w * h * 3)
    (hY : ∀ y, y < h → ∀ x, x < w → yP.getD (y * s0 + x) 0 = yc)
    (hU : ∀ cy, cy < h / 2 → ∀ cx, cx < w / 2 → uP.getD (cy * s1 + cx) 0 = 128)
    (hV : ∀ cy, cy < h / 2 → ∀ cx, cx < w / 2 → vP.getD (cy * s2 + cx) 0 = 128) :
    outByte yP uP vP w s0 s1 s2 i = chan (i % 3) yc 128 128 := by
  obtain ⟨hyh, hxw, hw0⟩ := outByte_index_bounds w h i hi
  unfold outByte pixelByte
  rw [hY (i / 3 / w) hyh (i / 3 % w) hxw,
    hU (i / 3 / w / 2) (by omega) (i / 3 % w / 2) (by omega),
    hV (i / 3 / w / 2) (by omega) (i / 3 % w / 2) (by omega)]

lemma satU8_neg (q : ℚ) (hq : q < 0) : satU8 q = 0 := by
  unfold satU8
  rw [if_pos hq]

lemma satU8_ge255 (q : ℚ) (hq : 255 ≤ q) : satU8 q = 255 := by
  unfold satU8
  rw [if_neg (by push_neg; linarith)]
  have hf : (255 : ℤ) ≤ ⌊q⌋ := by
    have h255 : ⌊(255 : ℚ)⌋ ≤ ⌊q⌋ := Int.floor_le_floor hq
    simpa using h255
  rw [min_eq_left (by omega)]

lemma satU8_trunc (q : ℚ) (hq0 : 0 ≤ q) (hq256 : q < 256) : (satU8 q : ℤ) = ⌊q⌋ := by
  unfold satU8
  rw [if_neg (not_lt.2 hq0)]
  have h0 : (0 : ℤ) ≤ ⌊q⌋ := Int.floor_nonneg.2 hq0
  have hf : ⌊q⌋ < 256 := Int.floor_lt.2 (by exact_mod_cast hq256)
  rw [min_eq_right (by omega)]
  omega

set_option allowUnsafeReducibility true

attribute [semireducible] Rat.mul Rat.add Rat.sub Rat.inv Rat.ofScientific

/-! ### The claims -/

/-- C1, counterexample to the claim as stated: this input satisfies every
precondition the claim lists — width 8 and height 2 both even, width a
multiple of 8, len(Y) = 4 len(U) = 4 len(V), stride_y = 2 stride_u =
2 stride_v, every indexed sample covered (h*s0 = 24 = len(Y), h/2*s1 = 6 =
len(U), w ≤ s0), target exactly width*height*3 bytes — yet the two
converters do not leave byte-identical buffers: the scalar converter
completes while the vectorized one fails on the row kernel assert
y_row.len() % 8 == 0, because stride_y = 12 is not a multiple of 8.  The
buffers therefore differ. -/
theorem c1_counterexample :
    (8 % 2 = 0 ∧ 2 % 2 = 0 ∧ 8 % 8 = 0 ∧
      (List.replicate 24 0).length = (List.replicate 6 128).length * 4 ∧
      (List.replicate 24 0).length = (List.replicate 6 128).length * 4 ∧
      (12 : ℕ) = 2 * 6 ∧ (8 : ℕ) ≤ 12 ∧ 2 * 12 ≤ (List.replicate 24 0).length ∧
      2 / 2 * 6 ≤ (List.replicate 6 128).length ∧
      8 * 2 * 3 ≤ (List.replicate 48 7).length) ∧
    write_rgb8_scalar (List.replicate 24 0) (List.replicate 6 128) (List.replicate 6 128)
      (8, 2) (12, 6, 6) (List.replicate 48 7) = .ok (List.replicate 48 0) ∧
    write_rgb8_f32x8 (List.replicate 24 0) (List.replicate 6 128) (List.replicate 6 128)
      (8, 2) (12, 6, 6) (List.replicate 48 7) = .error (List.replicate 48 7) ∧
    write_rgb8_scalar (List.replicate 24 0) (List.replicate 6 128) (List.replicate 6 128)
      (8, 2) (12, 6, 6) (List.replicate 48 7) ≠
      write_rgb8_f32x8 (List.replicate 24 0) (List.replicate 6 128) (List.replicate 6 128)
        (8, 2) (12, 6, 6) (List.replicate 48 7) := by
  decide

/-- C1 (amended): with the additional precondition that stride_y is a
multiple of 8 (forced by the row kernel assert y_row.len() % 8 == 0 on
rows of length stride_y), the two converters complete and leave the target
buffer byte-identical on every input satisfying both converters'
preconditions. -/
theorem c1_scalar_vectorized_equiv (yP uP vP : List ℕ) (w h s0 s1 s2 : ℕ)
    (target : List ℕ) (hv : SimdValid yP uP vP w h s0 s1 s2 target.length) :
    write_rgb8_scalar yP uP vP (w, h) (s0, s1, s2) target =
      write_rgb8_f32x8 yP uP vP (w, h) (s0, s1, s2) target ∧
    ∃ out, write_rgb8_scalar yP uP vP (w, h) (s0, s1, s2) target = .ok out := by
  rw [scalar_spec_of_valid yP uP vP w h s0 s1 s2 target hv.1,
    simd_spec_of_valid yP uP vP w h s0 s1 s2 target hv]
  exact ⟨rfl, _, rfl⟩

/-- C1 witness: a concrete valid call on which the amended equivalence
theorem applies. -/
theorem c1_scalar_vectorized_equiv_witness :
    SimdValid (List.replicate 16 0) (List.replicate 4 128) (List.replicate 4 128)
      8 2 8 4 4 (List.replicate 48 7).length ∧
    (write_rgb8_scalar (List.replicate 16 0) (List.replicate 4 128) (List.replicate 4 128)
        (8, 2) (8, 4, 4) (List.replicate 48 7) =
      write_rgb8_f32x8 (List.replicate 16 0) (List.replicate 4 128) (List.replicate 4 128)
        (8, 2) (8, 4, 4) (List.replicate 48 7) ∧
    ∃ out, write_rgb8_scalar (List.replicate 16 0) (List.replicate 4 128)
        (List.replicate 4 128) (8, 2) (8, 4, 4) (List.replicate 48 7) = .ok out) :=
  ⟨by decide, c1_scalar_vectorized_equiv (List.replicate 16 0) (List.replicate 4 128)
    (List.replicate 4 128) 8 2 8 4 4 (List.replicate 48 7) (by decide)⟩

/-- C2: on a valid call, the byte triple the scalar converter writes for
pixel (x, y) is exactly sat(fma(1.402, V-128, Y)),
sat(fma(0.714, -(V-128), fma(0.344, -(U-128), Y))),
sat(fma(1.772, U-128, Y)), with Y, U, V read at y*stride_y + x,
(y/2)*stride_u + x/2 and (y/2)*stride_v + x/2 (truncating division), each
product-and-add a single rounding, and sat the saturating f32-to-u8 cast
(negative values to 0, values at least 255 to 255, otherwise truncation;
NaN never arises from byte inputs). -/
theorem c2_scalar_pixel_formula (yP uP vP : List ℕ) (w h s0 s1 s2 x y : ℕ)
    (target : List ℕ) (hv : ScalarValid yP uP vP w h s0 s1 s2 target.length)
    (hx : x < w) (hy : y < h) :
    (∃ out, write_rgb8_scalar yP uP vP (w, h) (s0, s1, s2) target = .ok out ∧
      out.getD ((y * w + x) * 3) 0 =
        satU8 (fmaF32 c1402 ((vP.getD (y / 2 * s2 + x / 2) 0 : ℚ) - 128)
          (yP.getD (y * s0 + x) 0 : ℚ)) ∧
      out.getD ((y * w + x) * 3 + 1) 0 =
        satU8 (fmaF32 c0714 (-((vP.getD (y / 2 * s2 + x / 2) 0 : ℚ) - 128))
          (fmaF32 c0344 (-((uP.getD (y / 2 * s1 + x / 2) 0 : ℚ) - 128))
            (yP.getD (y * s0 + x) 0 : ℚ))) ∧
      out.getD ((y * w + x) * 3 + 2) 0 =
        satU8 (fmaF32 c1772 ((uP.getD (y / 2 * s1 + x / 2) 0 : ℚ) - 128)
          (yP.getD (y * s0 + x) 0 : ℚ))) ∧
    (∀ q : ℚ, q < 0 → satU8 q = 0) ∧ (∀ q : ℚ, 255 ≤ q → satU8 q = 255) ∧
    (∀ q : ℚ, 0 ≤ q → q < 256 → (satU8 q : ℤ) = ⌊q⌋) := by
  obtain ⟨hh2, hws, hwu, hwv, hYL, hUL, hVL, hT⟩ := hv
  have hp : y * w + x < w * h := by
    have h1 : (y + 1) * w ≤ h * w := mul_le_mul_right' (by omega) w
    have h2 : (y + 1) * w = y * w + w := by ring
    have h3 : h * w = w * h := by ring
    omega
  refine ⟨⟨rgbImage yP uP vP w h s0 s1 s2 target,
    scalar_spec_of_valid yP uP vP w h s0 s1 s2 target
      ⟨hh2, hws, hwu, hwv, hYL, hUL, hVL, hT⟩, ?_, ?_, ?_⟩, ?_, ?_, ?_⟩
  · have hd := outByte_decode yP uP vP w s0 s1 s2 y x 0 hx (by omega)
    rw [Nat.add_zero] at hd
    rw [getD_rgbImage yP uP vP w h s0 s1 s2 target _ (by omega), if_pos (by omega), hd]
    unfold pixelByte
    rw [chan_zero]
    rfl
  · have hd := outByte_decode yP uP vP w s0 s1 s2 y x 1 hx (by omega)
    rw [getD_rgbImage yP uP vP w h s0 s1 s2 target _ (by omega), if_pos (by omega), hd]
    unfold pixelByte
    rw [chan_one]
    rfl
  · have hd := outByte_decode yP uP vP w s0 s1 s2 y x 2 hx (by omega)
    rw [getD_rgbImage yP uP vP w h s0 s1 s2 target _ (by omega), if_pos (by omega), hd]
    unfold pixelByte
    rw [chan_two]
    rfl
  · exact satU8_neg
  · exact satU8_ge255
  · exact satU8_trunc

/-- C2 witness: a concrete valid call and pixel for the formula theorem. -/
theorem c2_scalar_pixel_formula_witness :
    ScalarValid [10, 20, 30, 40] [50] [200] 2 2 2 1 1 (List.replicate 12 0).length ∧
    1 < 2 ∧ 0 < 2 ∧
    ((∃ out, write_rgb8_scalar [10, 20, 30, 40] [50] [200] (2, 2) (2, 1, 1)
        (List.replicate 12 0) = .ok out ∧
      out.getD ((0 * 2 + 1) * 3) 0 =
        satU8 (fmaF32 c1402 (([200].getD (0 / 2 * 1 + 1 / 2) 0 : ℚ) - 128)
          ([10, 20, 30, 40].getD (0 * 2 + 1) 0 : ℚ)) ∧
      out.getD ((0 * 2 + 1) * 3 + 1) 0 =
        satU8 (fmaF32 c0714 (-(([200].getD (0 / 2 * 1 + 1 / 2) 0 : ℚ) - 128))
          (fmaF32 c0344 (-(([50].getD (0 / 2 * 1 + 1 / 2) 0 : ℚ) - 128))
            ([10, 20, 30, 40].getD (0 * 2 + 1) 0 : ℚ))) ∧
      out.getD ((0 * 2 + 1) * 3 + 2) 0 =
        satU8 (fmaF32 c1772 (([50].getD (0 / 2 * 1 + 1 / 2) 0 : ℚ) - 128)
          ([10, 20, 30, 40].getD (0 * 2 + 1) 0 : ℚ))) ∧
    (∀ q : ℚ, q < 0 → satU8 q = 0) ∧ (∀ q : ℚ, 255 ≤ q → satU8 q = 255) ∧
    (∀ q : ℚ, 0 ≤ q → q < 256 → (satU8 q : ℤ) = ⌊q⌋)) :=
  ⟨by decide, by decide, by decide,
    c2_scalar_pixel_formula [10, 20, 30, 40] [50] [200] 2 2 2 1 1 1 0
      (List.replicate 12 0) (by decide) (by decide) (by decide)⟩

/-- C3, counterexample to the claim as stated: a call of write_rgb8_scalar
whose target buffer is shorter than width*height*3 (3 < 12) violates the
precondition, yet the call does not leave the buffer untouched: the first
pixel is written before the out-of-bounds access on the second pixel
panics, so the buffer at the panic is [0, 0, 0], not the original
[7, 7, 7]. -/
theorem c3_counterexample :
    ([7, 7, 7] : List ℕ).length < 2 * 2 * 3 ∧
    write_rgb8_scalar [0, 0, 0, 0] [128] [128] (2, 2) (2, 1, 1) [7, 7, 7] =
      .error [0, 0, 0] ∧
    ([0, 0, 0] : List ℕ) ≠ [7, 7, 7] := by
  decide

/-- C3 (amended): only the vectorized converter's up-front assertions
(plane-length ratios and width % 8) are guaranteed to fail before any byte
of the target is written; a violation detected later (an undersized
target, or a stride inconsistency caught inside the frame loop) raises the
failure at the first out-of-bounds access or assert, which can leave
earlier writes in place. -/
theorem c3_abort_before_mutate (yP uP vP : List ℕ) (dim : ℕ × ℕ)
    (strides : ℕ × ℕ × ℕ) (target : List ℕ)
    (hbad : yP.length ≠ uP.length * 4 ∨ yP.length ≠ vP.length * 4 ∨ dim.1 % 8 ≠ 0) :
    write_rgb8_f32x8 yP uP vP dim strides target = .error target := by
  unfold write_rgb8_f32x8
  rcases hbad with h | h | h
  · rw [if_pos h]
  · by_cases h1 : yP.length ≠ uP.length * 4
    · rw [if_pos h1]
    · rw [if_neg h1, if_pos h]
  · by_cases h1 : yP.length ≠ uP.length * 4
    · rw [if_pos h1]
    · rw [if_neg h1]
      by_cases h2 : yP.length ≠ vP.length * 4
      · rw [if_pos h2]
      · rw [if_neg h2, if_pos h]

/-- C3 witness: a concrete call violating the plane-length ratio, on which
the vectorized converter fails with the target untouched. -/
theorem c3_abort_before_mutate_witness :
    (([5] : List ℕ).length ≠ ([] : List ℕ).length * 4 ∨
      ([5] : List ℕ).length ≠ ([] : List ℕ).length * 4 ∨ (2, 2).1 % 8 ≠ 0) ∧
    write_rgb8_f32x8 [5] [] [] (2, 2) (1, 1, 1) [9, 9] = .error [9, 9] :=
  ⟨by decide, c3_abort_before_mutate [5] [] [] (2, 2) (1, 1, 1) [9, 9] (by decide)⟩

/-- C4: the up-front checks of write_rgb8_f32x8 do not constrain the
strides; the row kernel assert y_row.len = 2 * u_row.len (resp. v_row) on
rows of length stride_y, stride_u, stride_v is what enforces
stride_y = 2 * stride_u = 2 * stride_v.  For any height at least 2 the
loop body runs, so a completed call implies both stride equations, and a
call with stride_y different from 2 * stride_u panics. -/
theorem c4_stride_asserts (yP uP vP : List ℕ) (w h s0 s1 s2 : ℕ) (target : List ℕ)
    (hh : 2 ≤ h) :
    (∀ out, write_rgb8_f32x8 yP uP vP (w, h) (s0, s1, s2) target = .ok out →
      s0 = s1 * 2 ∧ s0 = s2 * 2) ∧
    (s0 ≠ s1 * 2 →
      ∃ e, write_rgb8_f32x8 yP uP vP (w, h) (s0, s1, s2) target = .error e) := by
  have key : ∀ out, write_rgb8_f32x8 yP uP vP (w, h) (s0, s1, s2) target = .ok out →
      s0 = s1 * 2 ∧ s0 = s2 * 2 := by
    intro out hok
    rw [show write_rgb8_f32x8 yP uP vP (w, h) (s0, s1, s2) target =
      (if yP.length ≠ uP.length * 4 then Except.error target
       else if yP.length ≠ vP.length * 4 then Except.error target
       else if w % 8 ≠ 0 then Except.error target
       else driverLoop yP uP vP w s0 s1 s2 0 (h / 2) target) from rfl] at hok
    by_cases a1 : yP.length ≠ uP.length * 4
    · rw [if_pos a1] at hok
      simp at hok
    · rw [if_neg a1] at hok
      by_cases a2 : yP.length ≠ vP.length * 4
      · rw [if_pos a2] at hok
        simp at hok
      · rw [if_neg a2] at hok
        by_cases a3 : w % 8 ≠ 0
        · rw [if_pos a3] at hok
          simp at hok
        · rw [if_neg a3] at hok
          obtain ⟨m, hm⟩ : ∃ m, h / 2 = m + 1 := ⟨h / 2 - 1, by omega⟩
          rw [hm] at hok
          simp only [driverLoop] at hok
          by_cases q1 : uP.length < 0 * s1 + s1
          · rw [if_pos q1] at hok
            simp at hok
          · rw [if_neg q1] at hok
            by_cases q2 : vP.length < 0 * s2 + s2
            · rw [if_pos q2] at hok
              simp at hok
            · rw [if_neg q2] at hok
              by_cases q3 : yP.length < 2 * 0 * s0 + s0
              · rw [if_pos q3] at hok
                simp at hok
              · rw [if_neg q3] at hok
                by_cases q4 : target.length < 2 * 0 * (3 * w) + 3 * w
                · rw [if_pos q4] at hok
                  simp at hok
                · rw [if_neg q4] at hok
                  rcases hk : write_rgb8_f32x8_row (sliceRow yP (2 * 0 * s0) s0)
                      (sliceRow uP (0 * s1) s1) (sliceRow vP (0 * s2) s2) w
                      (sliceRow target (2 * 0 * (3 * w)) (3 * w)) with rt | rt
                  · rw [hk] at hok
                    simp at hok
                  · have lyR : (sliceRow yP (2 * 0 * s0) s0).length = s0 :=
                      length_sliceRow _ _ _ (by omega)
                    have luR : (sliceRow uP (0 * s1) s1).length = s1 :=
                      length_sliceRow _ _ _ (by omega)
                    have lvR : (sliceRow vP (0 * s2) s2).length = s2 :=
                      length_sliceRow _ _ _ (by omega)
                    unfold write_rgb8_f32x8_row at hk
                    by_cases b1 : (sliceRow yP (2 * 0 * s0) s0).length ≠
                        (sliceRow uP (0 * s1) s1).length * 2
                    · rw [if_pos b1] at hk
                      simp at hk
                    · by_cases b2 : (sliceRow yP (2 * 0 * s0) s0).length ≠
                          (sliceRow vP (0 * s2) s2).length * 2
                      · rw [if_neg b1, if_pos b2] at hk
                        simp at hk
                      · push_neg at b1 b2
                        rw [lyR, luR] at b1
                        rw [lyR, lvR] at b2
                        exact ⟨b1, b2⟩
  refine ⟨key, fun hne => ?_⟩
  rcases hres : write_rgb8_f32x8 yP uP vP (w, h) (s0, s1, s2) target with e | o
  · exact ⟨e, rfl⟩
  · exact absurd (key o hres).1 hne

/-- C4 witness: height 2 with stride_y = 8 but stride_u = 5, on which the
theorem applies. -/
theorem c4_stride_asserts_witness :
    2 ≤ 2 ∧
    ((∀ out, write_rgb8_f32x8 (List.replicate 16 0) (List.replicate 4 128)
        (List.replicate 4 128) (8, 2) (8, 5, 4) (List.replicate 48 7) = .ok out →
        (8 : ℕ) = 5 * 2 ∧ (8 : ℕ) = 4 * 2) ∧
      ((8 : ℕ) ≠ 5 * 2 →
        ∃ e, write_rgb8_f32x8 (List.replicate 16 0) (List.replicate 4 128)
          (List.replicate 4 128) (8, 2) (8, 5, 4) (List.replicate 48 7) = .error e)) :=
  ⟨by decide, c4_stride_asserts (List.replicate 16 0) (List.replicate 4 128)
    (List.replicate 4 128) 8 2 8 5 4 (List.replicate 48 7) (by decide)⟩

/-- C5: stride isolation.  Two valid inputs that agree on the dimensions
and strides, on the first width samples of every luma row and on the first
width/2 samples of every chroma row — but may differ arbitrarily in the
padding bytes beyond those prefixes — produce identical target buffers,
for the scalar converter and (on vectorized-valid geometry) for the
vectorized converter. -/
theorem c5_stride_isolation (yP uP vP yP2 uP2 vP2 : List ℕ) (w h s0 s1 s2 : ℕ)
    (target : List ℕ) (hw2 : w % 2 = 0)
    (hv1 : ScalarValid yP uP vP w h s0 s1 s2 target.length)
    (hv2 : ScalarValid yP2 uP2 vP2 w h s0 s1 s2 target.length)
    (hY : ∀ y, y < h → ∀ x, x < w → yP.getD (y * s0 + x) 0 = yP2.getD (y * s0 + x) 0)
    (hU : ∀ cy, cy < h / 2 → ∀ cx, cx < w / 2 →
      uP.getD (cy * s1 + cx) 0 = uP2.getD (cy * s1 + cx) 0)
    (hV : ∀ cy, cy < h / 2 → ∀ cx, cx < w / 2 →
      vP.getD (cy * s2 + cx) 0 = vP2.getD (cy * s2 + cx) 0) :
    write_rgb8_scalar yP uP vP (w, h) (s0, s1, s2) target =
      write_rgb8_scalar yP2 uP2 vP2 (w, h) (s0, s1, s2) target ∧
    (SimdValid yP uP vP w h s0 s1 s2 target.length →
      SimdValid yP2 uP2 vP2 w h s0 s1 s2 target.length →
      write_rgb8_f32x8 yP uP vP (w, h) (s0, s1, s2) target =
        write_rgb8_f32x8 yP2 uP2 vP2 (w, h) (s0, s1, s2) target) := by
  have himg : rgbImage yP uP vP w h s0 s1 s2 target =
      rgbImage yP2 uP2 vP2 w h s0 s1 s2 target := by
    unfold rgbImage
    refine List.map_congr_left fun i hi => ?_
    by_cases hlt : i < w * h * 3
    · rw [if_pos hlt, if_pos hlt,
        outByte_agree yP uP vP yP2 uP2 vP2 w h s0 s1 s2 i hv1.1 hw2 hlt hY hU hV]
    · rw [if_neg hlt, if_neg hlt]
  exact ⟨by rw [scalar_spec_of_valid _ _ _ _ _ _ _ _ _ hv1,
      scalar_spec_of_valid _ _ _ _ _ _ _ _ _ hv2, himg],
    fun sv1 sv2 => by rw [simd_spec_of_valid _ _ _ _ _ _ _ _ _ sv1,
      simd_spec_of_valid _ _ _ _ _ _ _ _ _ sv2, himg]⟩

/-- C5 witness: two concrete inputs with stride 4 on a width-2 luma plane
and stride 2 on width-1 chroma rows, whose padding bytes differ. -/
theorem c5_stride_isolation_witness :
    2 % 2 = 0 ∧
    ScalarValid [1, 2, 90, 91, 3, 4, 92, 93] [5, 6] [8, 9] 2 2 4 2 2
      (List.replicate 12 0).length ∧
    ScalarValid [1, 2, 80, 81, 3, 4, 82, 83] [5, 7] [8, 10] 2 2 4 2 2
      (List.replicate 12 0).length ∧
    (write_rgb8_scalar [1, 2, 90, 91, 3, 4, 92, 93] [5, 6] [8, 9] (2, 2) (4, 2, 2)
        (List.replicate 12 0) =
      write_rgb8_scalar [1, 2, 80, 81, 3, 4, 82, 83] [5, 7] [8, 10] (2, 2) (4, 2, 2)
        (List.replicate 12 0) ∧
    (SimdValid [1, 2, 90, 91, 3, 4, 92, 93] [5, 6] [8, 9] 2 2 4 2 2
        (List.replicate 12 0).length →
      SimdValid [1, 2, 80, 81, 3, 4, 82, 83] [5, 7] [8, 10] 2 2 4 2 2
        (List.replicate 12 0).length →
      write_rgb8_f32x8 [1, 2, 90, 91, 3, 4, 92, 93] [5, 6] [8, 9] (2, 2) (4, 2, 2)
          (List.replicate 12 0) =
        write_rgb8_f32x8 [1, 2, 80, 81, 3, 4, 82, 83] [5, 7] [8, 10] (2, 2) (4, 2, 2)
          (List.replicate 12 0))) :=
  ⟨by decide, by decide, by decide,
    c5_stride_isolation [1, 2, 90, 91, 3, 4, 92, 93] [5, 6] [8, 9]
      [1, 2, 80, 81, 3, 4, 82, 83] [5, 7] [8, 10] 2 2 4 2 2 (List.replicate 12 0)
      (by decide) (by decide) (by decide) (by decide) (by decide) (by decide)⟩

/-- C6: on a valid call each converter writes exactly the first
width*height*3 bytes of the target: the output has the target's length,
every byte below width*height*3 is the image byte (a function of the
planes alone, not of the previous target contents), and every byte at or
above width*height*3 keeps its previous value. -/
theorem c6_write_region (yP uP vP : List ℕ) (w h s0 s1 s2 : ℕ) (target : List ℕ)
    (hv : ScalarValid yP uP vP w h s0 s1 s2 target.length) :
    (∃ out, write_rgb8_scalar yP uP vP (w, h) (s0, s1, s2) target = .ok out ∧
      out.length = target.length ∧
      (∀ i, i < w * h * 3 → out.getD i 0 = outByte yP uP vP w s0 s1 s2 i) ∧
      (∀ i, w * h * 3 ≤ i → out.getD i 0 = target.getD i 0)) ∧
    (SimdValid yP uP vP w h s0 s1 s2 target.length →
      ∃ out, write_rgb8_f32x8 yP uP vP (w, h) (s0, s1, s2) target = .ok out ∧
        out.length = target.length ∧
        (∀ i, i < w * h * 3 → out.getD i 0 = outByte yP uP vP w s0 s1 s2 i) ∧
        (∀ i, w * h * 3 ≤ i → out.getD i 0 = target.getD i 0)) := by
  obtain ⟨hh2, hws, hwu, hwv, hYL, hUL, hVL, hT⟩ := hv
  have h1 : ∀ i, i < w * h * 3 →
      (rgbImage yP uP vP w h s0 s1 s2 target).getD i 0 = outByte yP uP vP w s0 s1 s2 i := by
    intro i hi
    rw [getD_rgbImage yP uP vP w h s0 s1 s2 target i (by omega), if_pos hi]
  have h2 : ∀ i, w * h * 3 ≤ i →
      (rgbImage yP uP vP w h s0 s1 s2 target).getD i 0 = target.getD i 0 := by
    intro i hi
    by_cases hiL : i < target.length
    · rw [getD_rgbImage yP uP vP w h s0 s1 s2 target i hiL, if_neg (by omega)]
    · rw [getD_beyond _ _ (by rw [length_rgbImage]; omega), getD_beyond _ _ (by omega)]
  exact ⟨⟨_, scalar_spec_of_valid _ _ _ _ _ _ _ _ _
      ⟨hh2, hws, hwu, hwv, hYL, hUL, hVL, hT⟩,
      length_rgbImage _ _ _ _ _ _ _ _ _, h1, h2⟩,
    fun sv => ⟨_, simd_spec_of_valid _ _ _ _ _ _ _ _ _ sv,
      length_rgbImage _ _ _ _ _ _ _ _ _, h1, h2⟩⟩

/-- C6 witness: a concrete valid call. -/
theorem c6_write_region_witness :
    ScalarValid (List.replicate 16 0) (List.replicate 4 128) (List.replicate 4 128)
      8 2 8 4 4 (List.replicate 50 7).length ∧
    ((∃ out, write_rgb8_scalar (List.replicate 16 0) (List.replicate 4 128)
        (List.replicate 4 128) (8, 2) (8, 4, 4) (List.replicate 50 7) = .ok out ∧
      out.length = (List.replicate 50 7).length ∧
      (∀ i, i < 8 * 2 * 3 → out.getD i 0 =
        outByte (List.replicate 16 0) (List.replicate 4 128) (List.replicate 4 128)
          8 8 4 4 i) ∧
      (∀ i, 8 * 2 * 3 ≤ i → out.getD i 0 = (List.replicate 50 7).getD i 0)) ∧
    (SimdValid (List.replicate 16 0) (List.replicate 4 128) (List.replicate 4 128)
        8 2 8 4 4 (List.replicate 50 7).length →
      ∃ out, write_rgb8_f32x8 (List.replicate 16 0) (List.replicate 4 128)
          (List.replicate 4 128) (8, 2) (8, 4, 4) (List.replicate 50 7) = .ok out ∧
        out.length = (List.replicate 50 7).length ∧
        (∀ i, i < 8 * 2 * 3 → out.getD i 0 =
          outByte (List.replicate 16 0) (List.replicate 4 128) (List.replicate 4 128)
            8 8 4 4 i) ∧
        (∀ i, 8 * 2 * 3 ≤ i → out.getD i 0 = (List.replicate 50 7).getD i 0))) :=
  ⟨by decide, c6_write_region (List.replicate 16 0) (List.replicate 4 128)
    (List.replicate 4 128) 8 2 8 4 4 (List.replicate 50 7) (by decide)⟩

/-- C7: chroma sharing.  On a valid call, for either converter, the output
byte of channel c at pixel (2i+a, 2j+b) of a 2x2 block (a, b < 2) is the
channel function of the luma sample at (2j+b)*stride_y + (2i+a) and the
block's shared chroma samples at j*stride_u + i and j*stride_v + i;
consequently any two pixels of the same block with equal luma samples
receive identical bytes on every channel.  The first conjunct covers
write_rgb8_scalar; the second covers write_rgb8_f32x8 (whose replicating
gather loads each chroma sample into two adjacent lanes) under its extra
preconditions. -/
theorem c7_chroma_sharing (yP uP vP : List ℕ) (w h s0 s1 s2 : ℕ) (target : List ℕ)
    (hv : ScalarValid yP uP vP w h s0 s1 s2 target.length) :
    (∃ out, write_rgb8_scalar yP uP vP (w, h) (s0, s1, s2) target = .ok out ∧
      (∀ i j a b c, a < 2 → b < 2 → c < 3 → 2 * i + 1 < w → 2 * j + 1 < h →
        out.getD (((2 * j + b) * w + (2 * i + a)) * 3 + c) 0 =
          chan c (yP.getD ((2 * j + b) * s0 + (2 * i + a)) 0)
            (uP.getD (j * s1 + i) 0) (vP.getD (j * s2 + i) 0)) ∧
      (∀ i j a b a2 b2 c, a < 2 → b < 2 → a2 < 2 → b2 < 2 → c < 3 →
        2 * i + 1 < w → 2 * j + 1 < h →
        yP.getD ((2 * j + b) * s0 + (2 * i + a)) 0 =
          yP.getD ((2 * j + b2) * s0 + (2 * i + a2)) 0 →
        out.getD (((2 * j + b) * w + (2 * i + a)) * 3 + c) 0 =
          out.getD (((2 * j + b2) * w + (2 * i + a2)) * 3 + c) 0)) ∧
    (SimdValid yP uP vP w h s0 s1 s2 target.length →
      ∃ out, write_rgb8_f32x8 yP uP vP (w, h) (s0, s1, s2) target = .ok out ∧
        (∀ i j a b c, a < 2 → b < 2 → c < 3 → 2 * i + 1 < w → 2 * j + 1 < h →
          out.getD (((2 * j + b) * w + (2 * i + a)) * 3 + c) 0 =
            chan c (yP.getD ((2 * j + b) * s0 + (2 * i + a)) 0)
              (uP.getD (j * s1 + i) 0) (vP.getD (j * s2 + i) 0)) ∧
        (∀ i j a b a2 b2 c, a < 2 → b < 2 → a2 < 2 → b2 < 2 → c < 3 →
          2 * i + 1 < w → 2 * j + 1 < h →
          yP.getD ((2 * j + b) * s0 + (2 * i + a)) 0 =
            yP.getD ((2 * j + b2) * s0 + (2 * i + a2)) 0 →
          out.getD (((2 * j + b) * w + (2 * i + a)) * 3 + c) 0 =
            out.getD (((2 * j + b2) * w + (2 * i + a2)) * 3 + c) 0)) := by
  obtain ⟨hh2, hws, hwu, hwv, hYL, hUL, hVL, hT⟩ := hv
  have main : ∀ i j a b c, a < 2 → b < 2 → c < 3 → 2 * i + 1 < w → 2 * j + 1 < h →
      (rgbImage yP uP vP w h s0 s1 s2 target).getD
          (((2 * j + b) * w + (2 * i + a)) * 3 + c) 0 =
        chan c (yP.getD ((2 * j + b) * s0 + (2 * i + a)) 0)
          (uP.getD (j * s1 + i) 0) (vP.getD (j * s2 + i) 0) := by
    intro i j a b c ha hb hc hiw hjh
    have hx : 2 * i + a < w := by omega
    have hp : (2 * j + b) * w + (2 * i + a) < w * h := by
      have k1 : (2 * j + b + 1) * w ≤ h * w := mul_le_mul_right' (by omega) w
      have k2 : (2 * j + b + 1) * w = (2 * j + b) * w + w := by ring
      have k3 : h * w = w * h := by ring
      omega
    have hd := outByte_decode yP uP vP w s0 s1 s2 (2 * j + b) (2 * i + a) c hx hc
    rw [getD_rgbImage yP uP vP w h s0 s1 s2 target _ (by omega), if_pos (by omega), hd]
    unfold pixelByte
    rw [show (2 * j + b) / 2 = j by omega, show (2 * i + a) / 2 = i by omega]
  have share : ∀ i j a b a2 b2 c, a < 2 → b < 2 → a2 < 2 → b2 < 2 → c < 3 →
      2 * i + 1 < w → 2 * j + 1 < h →
      yP.getD ((2 * j + b) * s0 + (2 * i + a)) 0 =
        yP.getD ((2 * j + b2) * s0 + (2 * i + a2)) 0 →
      (rgbImage yP uP vP w h s0 s1 s2 target).getD
          (((2 * j + b) * w + (2 * i + a)) * 3 + c) 0 =
        (rgbImage yP uP vP w h s0 s1 s2 target).getD
          (((2 * j + b2) * w + (2 * i + a2)) * 3 + c) 0 := by
    intro i j a b a2 b2 c ha hb ha2 hb2 hc hiw hjh hyeq
    rw [main i j a b c ha hb hc hiw hjh, main i j a2 b2 c ha2 hb2 hc hiw hjh, hyeq]
  exact ⟨⟨rgbImage yP uP vP w h s0 s1 s2 target,
      scalar_spec_of_valid _ _ _ _ _ _ _ _ _ ⟨hh2, hws, hwu, hwv, hYL, hUL, hVL, hT⟩,
      main, share⟩,
    fun sv => ⟨rgbImage yP uP vP w h s0 s1 s2 target,
      simd_spec_of_valid _ _ _ _ _ _ _ _ _ sv, main, share⟩⟩

/-- C7 witness: a concrete call satisfying both converters' preconditions
(the SimdValid conjunct shows the vectorized branch is exercised). -/
theorem c7_chroma_sharing_witness :
    ScalarValid [9, 9, 10, 11, 21, 22, 23, 24, 9, 13, 14, 15, 25, 26, 27, 28]
      [70, 71, 72, 73] [60, 61, 62, 63] 8 2 8 4 4 (List.replicate 48 0).length ∧
    SimdValid [9, 9, 10, 11, 21, 22, 23, 24, 9, 13, 14, 15, 25, 26, 27, 28]
      [70, 71, 72, 73] [60, 61, 62, 63] 8 2 8 4 4 (List.replicate 48 0).length ∧
    ((∃ out, write_rgb8_scalar [9, 9, 10, 11, 21, 22, 23, 24, 9, 13, 14, 15, 25, 26, 27, 28]
        [70, 71, 72, 73] [60, 61, 62, 63] (8, 2) (8, 4, 4) (List.replicate 48 0) = .ok out ∧
      (∀ i j a b c, a < 2 → b < 2 → c < 3 → 2 * i + 1 < 8 → 2 * j + 1 < 2 →
        out.getD (((2 * j + b) * 8 + (2 * i + a)) * 3 + c) 0 =
          chan c ([9, 9, 10, 11, 21, 22, 23, 24, 9, 13, 14, 15, 25, 26, 27, 28].getD
              ((2 * j + b) * 8 + (2 * i + a)) 0)
            ([70, 71, 72, 73].getD (j * 4 + i) 0) ([60, 61, 62, 63].getD (j * 4 + i) 0)) ∧
      (∀ i j a b a2 b2 c, a < 2 → b < 2 → a2 < 2 → b2 < 2 → c < 3 →
        2 * i + 1 < 8 → 2 * j + 1 < 2 →
        [9, 9, 10, 11, 21, 22, 23, 24, 9, 13, 14, 15, 25, 26, 27, 28].getD
            ((2 * j + b) * 8 + (2 * i + a)) 0 =
          [9, 9, 10, 11, 21, 22, 23, 24, 9, 13, 14, 15, 25, 26, 27, 28].getD
            ((2 * j + b2) * 8 + (2 * i + a2)) 0 →
        out.getD (((2 * j + b) * 8 + (2 * i + a)) * 3 + c) 0 =
          out.getD (((2 * j + b2) * 8 + (2 * i + a2)) * 3 + c) 0)) ∧
    (SimdValid [9, 9, 10, 11, 21, 22, 23, 24, 9, 13, 14, 15, 25, 26, 27, 28]
        [70, 71, 72, 73] [60, 61, 62, 63] 8 2 8 4 4 (List.replicate 48 0).length →
      ∃ out, write_rgb8_f32x8 [9, 9, 10, 11, 21, 22, 23, 24, 9, 13, 14, 15, 25, 26, 27, 28]
          [70, 71, 72, 73] [60, 61, 62, 63] (8, 2) (8, 4, 4) (List.replicate 48 0) = .ok out ∧
        (∀ i j a b c, a < 2 → b < 2 → c < 3 → 2 * i + 1 < 8 → 2 * j + 1 < 2 →
          out.getD (((2 * j + b) * 8 + (2 * i + a)) * 3 + c) 0 =
            chan c ([9, 9, 10, 11, 21, 22, 23, 24, 9, 13, 14, 15, 25, 26, 27, 28].getD
                ((2 * j + b) * 8 + (2 * i + a)) 0)
              ([70, 71, 72, 73].getD (j * 4 + i) 0) ([60, 61, 62, 63].getD (j * 4 + i) 0)) ∧
        (∀ i j a b a2 b2 c, a < 2 → b < 2 → a2 < 2 → b2 < 2 → c < 3 →
          2 * i + 1 < 8 → 2 * j + 1 < 2 →
          [9, 9, 10, 11, 21, 22, 23, 24, 9, 13, 14, 15, 25, 26, 27, 28].getD
              ((2 * j + b) * 8 + (2 * i + a)) 0 =
            [9, 9, 10, 11, 21, 22, 23, 24, 9, 13, 14, 15, 25, 26, 27, 28].getD
              ((2 * j + b2) * 8 + (2 * i + a2)) 0 →
          out.getD (((2 * j + b) * 8 + (2 * i + a)) * 3 + c) 0 =
            out.getD (((2 * j + b2) * 8 + (2 * i + a2)) * 3 + c) 0))) :=
  ⟨by decide, by decide,
    c7_chroma_sharing [9, 9, 10, 11, 21, 22, 23, 24, 9, 13, 14, 15, 25, 26, 27, 28]
      [70, 71, 72, 73] [60, 61, 62, 63] 8 2 8 4 4 (List.replicate 48 0) (by decide)⟩

/-- C8: with both chroma planes holding 128 at every sampled position, a
luma plane holding 0 everywhere yields an all-(0,0,0) image and a luma
plane holding 255 everywhere yields an all-(255,255,255) image, for both
converters. -/
theorem c8_black_white (yP uP vP : List ℕ) (w h s0 s1 s2 : ℕ) (target : List ℕ)
    (hv : ScalarValid yP uP vP w h s0 s1 s2 target.length) (hw2 : w % 2 = 0)
    (hU : ∀ cy, cy < h / 2 → ∀ cx, cx < w / 2 → uP.getD (cy * s1 + cx) 0 = 128)
    (hV : ∀ cy, cy < h / 2 → ∀ cx, cx < w / 2 → vP.getD (cy * s2 + cx) 0 = 128) :
    ((∀ y, y < h → ∀ x, x < w → yP.getD (y * s0 + x) 0 = 0) →
      (∃ out, write_rgb8_scalar yP uP vP (w, h) (s0, s1, s2) target = .ok out ∧
        ∀ i, i < w * h * 3 → out.getD i 0 = 0) ∧
      (SimdValid yP uP vP w h s0 s1 s2 target.length →
        ∃ out, write_rgb8_f32x8 yP uP vP (w, h) (s0, s1, s2) target = .ok out ∧
          ∀ i, i < w * h * 3 → out.getD i 0 = 0)) ∧
    ((∀ y, y < h → ∀ x, x < w → yP.getD (y * s0 + x) 0 = 255) →
      (∃ out, write_rgb8_scalar yP uP vP (w, h) (s0, s1, s2) target = .ok out ∧
        ∀ i, i < w * h * 3 → out.getD i 0 = 255) ∧
      (SimdValid yP uP vP w h s0 s1 s2 target.length →
        ∃ out, write_rgb8_f32x8 yP uP vP (w, h) (s0, s1, s2) target = .ok out ∧
          ∀ i, i < w * h * 3 → out.getD i 0 = 255)) := by
  obtain ⟨hh2, hws, hwu, hwv, hYL, hUL, hVL, hT⟩ := hv
  have hblack : ∀ c, c < 3 → chan c 0 128 128 = 0 := by decide
  have hwhite : ∀ c, c < 3 → chan c 255 128 128 = 255 := by decide
  have himg : ∀ yc, (∀ y, y < h → ∀ x, x < w → yP.getD (y * s0 + x) 0 = yc) →
      ∀ i, i < w * h * 3 →
        (rgbImage yP uP vP w h s0 s1 s2 target).getD i 0 = chan (i % 3) yc 128 128 := by
    intro yc hY i hi
    rw [getD_rgbImage yP uP vP w h s0 s1 s2 target i (by omega), if_pos hi,
      outByte_const yP uP vP w h s0 s1 s2 i yc hh2 hw2 hi hY hU hV]
  constructor
  · intro hY0
    have hz : ∀ i, i < w * h * 3 →
        (rgbImage yP uP vP w h s0 s1 s2 target).getD i 0 = 0 := by
      intro i hi
      rw [himg 0 hY0 i hi, hblack (i % 3) (by omega)]
    exact ⟨⟨_, scalar_spec_of_valid _ _ _ _ _ _ _ _ _
        ⟨hh2, hws, hwu, hwv, hYL, hUL, hVL, hT⟩, hz⟩,
      fun sv => ⟨_, simd_spec_of_valid _ _ _ _ _ _ _ _ _ sv, hz⟩⟩
  · intro hY255
    have hz : ∀ i, i < w * h * 3 →
        (rgbImage yP uP vP w h s0 s1 s2 target).getD i 0 = 255 := by
      intro i hi
      rw [himg 255 hY255 i hi, hwhite (i % 3) (by omega)]
    exact ⟨⟨_, scalar_spec_of_valid _ _ _ _ _ _ _ _ _
        ⟨hh2, hws, hwu, hwv, hYL, hUL, hVL, hT⟩, hz⟩,
      fun sv => ⟨_, simd_spec_of_valid _ _ _ _ _ _ _ _ _ sv, hz⟩⟩

/-- C8 witness: a concrete all-zero luma frame with constant-128 chroma. -/
theorem c8_black_white_witness :
    ScalarValid (List.replicate 16 0) (List.replicate 4 128) (List.replicate 4 128)
      8 2 8 4 4 (List.replicate 48 7).length ∧ 8 % 2 = 0 ∧
    ((∀ y, y < 2 → ∀ x, x < 8 → (List.replicate 16 0).getD (y * 8 + x) 0 = 0) →
      (∃ out, write_rgb8_scalar (List.replicate 16 0) (List.replicate 4 128)
          (List.replicate 4 128) (8, 2) (8, 4, 4) (List.replicate 48 7) = .ok out ∧
        ∀ i, i < 8 * 2 * 3 → out.getD i 0 = 0) ∧
      (SimdValid (List.replicate 16 0) (List.replicate 4 128) (List.replicate 4 128)
          8 2 8 4 4 (List.replicate 48 7).length →
        ∃ out, write_rgb8_f32x8 (List.replicate 16 0) (List.replicate 4 128)
            (List.replicate 4 128) (8, 2) (8, 4, 4) (List.replicate 48 7) = .ok out ∧
          ∀ i, i < 8 * 2 * 3 → out.getD i 0 = 0)) :=
  ⟨by decide, by decide,
    ((c8_black_white (List.replicate 16 0) (List.replicate 4 128) (List.replicate 4 128)
      8 2 8 4 4 (List.replicate 48 7) (by decide) (by decide) (by decide)
      (by decide)).1 : _)⟩

/-- C9: per-channel clamping at Y=255, U=128, V=255.  The unclamped R
value exceeds 255 and R clamps to 255, while G and B hold their own
in-range unclamped results: G truncates to 164, the truncation of
255 - 0.714*127, and B is exactly 255.  On any valid call whose samples at
a pixel are that triple, the written bytes are (255, 164, 255) — for
write_rgb8_scalar, and for write_rgb8_f32x8 (whose lanes clamp to [0, 255]
and truncate channel-independently) under its extra preconditions. -/
theorem c9_saturation_per_channel (yP uP vP : List ℕ) (w h s0 s1 s2 x y : ℕ)
    (target : List ℕ) :
    (rgbR 255 255 = 255 ∧ 255 < fmaF32 c1402 ((255 : ℚ) - 128) 255) ∧
    (rgbG 255 128 255 = 164 ∧
      0 ≤ fmaF32 c0714 (-((255 : ℚ) - 128)) (fmaF32 c0344 (-((128 : ℚ) - 128)) 255) ∧
      fmaF32 c0714 (-((255 : ℚ) - 128)) (fmaF32 c0344 (-((128 : ℚ) - 128)) 255) ≤ 255 ∧
      ⌊(255 : ℚ) - c0714 * 127⌋ = 164) ∧
    (rgbB 255 128 = 255 ∧ fmaF32 c1772 ((128 : ℚ) - 128) 255 = 255) ∧
    (ScalarValid yP uP vP w h s0 s1 s2 target.length → x < w → y < h →
      yP.getD (y * s0 + x) 0 = 255 → uP.getD (y / 2 * s1 + x / 2) 0 = 128 →
      vP.getD (y / 2 * s2 + x / 2) 0 = 255 →
      (∃ out, write_rgb8_scalar yP uP vP (w, h) (s0, s1, s2) target = .ok out ∧
        out.getD ((y * w + x) * 3) 0 = 255 ∧
        out.getD ((y * w + x) * 3 + 1) 0 = 164 ∧
        out.getD ((y * w + x) * 3 + 2) 0 = 255) ∧
      (SimdValid yP uP vP w h s0 s1 s2 target.length →
        ∃ out, write_rgb8_f32x8 yP uP vP (w, h) (s0, s1, s2) target = .ok out ∧
          out.getD ((y * w + x) * 3) 0 = 255 ∧
          out.getD ((y * w + x) * 3 + 1) 0 = 164 ∧
          out.getD ((y * w + x) * 3 + 2) 0 = 255)) := by
  refine ⟨by decide, by decide, by decide, ?_⟩
  intro hv hx hy hYs hUs hVs
  obtain ⟨hh2, hws, hwu, hwv, hYL, hUL, hVL, hT⟩ := hv
  have hp : y * w + x < w * h := by
    have k1 : (y + 1) * w ≤ h * w := mul_le_mul_right' (by omega) w
    have k2 : (y + 1) * w = y * w + w := by ring
    have k3 : h * w = w * h := by ring
    omega
  have e0 : chan 0 255 128 255 = 255 := by decide
  have e1 : chan 1 255 128 255 = 164 := by decide
  have e2 : chan 2 255 128 255 = 255 := by decide
  have hbytes : (rgbImage yP uP vP w h s0 s1 s2 target).getD ((y * w + x) * 3) 0 = 255 ∧
      (rgbImage yP uP vP w h s0 s1 s2 target).getD ((y * w + x) * 3 + 1) 0 = 164 ∧
      (rgbImage yP uP vP w h s0 s1 s2 target).getD ((y * w + x) * 3 + 2) 0 = 255 := by
    refine ⟨?_, ?_, ?_⟩
    · have hd := outByte_decode yP uP vP w s0 s1 s2 y x 0 hx (by omega)
      rw [Nat.add_zero] at hd
      rw [getD_rgbImage yP uP vP w h s0 s1 s2 target _ (by omega), if_pos (by omega), hd]
      unfold pixelByte
      rw [hYs, hUs, hVs, e0]
    · have hd := outByte_decode yP uP vP w s0 s1 s2 y x 1 hx (by omega)
      rw [getD_rgbImage yP uP vP w h s0 s1 s2 target _ (by omega), if_pos (by omega), hd]
      unfold pixelByte
      rw [hYs, hUs, hVs, e1]
    · have hd := outByte_decode yP uP vP w s0 s1 s2 y x 2 hx (by omega)
      rw [getD_rgbImage yP uP vP w h s0 s1 s2 target _ (by omega), if_pos (by omega), hd]
      unfold pixelByte
      rw [hYs, hUs, hVs, e2]
  exact ⟨⟨rgbImage yP uP vP w h s0 s1 s2 target,
      scalar_spec_of_valid _ _ _ _ _ _ _ _ _ ⟨hh2, hws, hwu, hwv, hYL, hUL, hVL, hT⟩,
      hbytes⟩,
    fun sv => ⟨rgbImage yP uP vP w h s0 s1 s2 target,
      simd_spec_of_valid _ _ _ _ _ _ _ _ _ sv, hbytes⟩⟩

/-- C9 witness: a concrete frame whose samples at pixel (0, 0) are Y=255,
U=128, V=255 and which satisfies both converters' preconditions (the
SimdValid conjunct shows the vectorized branch is exercised). -/
theorem c9_saturation_per_channel_witness :
    ScalarValid (List.replicate 16 255) (List.replicate 4 128) (List.replicate 4 255)
      8 2 8 4 4 (List.replicate 48 0).length ∧
    SimdValid (List.replicate 16 255) (List.replicate 4 128) (List.replicate 4 255)
      8 2 8 4 4 (List.replicate 48 0).length ∧
    ((∃ out, write_rgb8_scalar (List.replicate 16 255) (List.replicate 4 128)
        (List.replicate 4 255) (8, 2) (8, 4, 4) (List.replicate 48 0) = .ok out ∧
      out.getD ((0 * 8 + 0) * 3) 0 = 255 ∧
      out.getD ((0 * 8 + 0) * 3 + 1) 0 = 164 ∧
      out.getD ((0 * 8 + 0) * 3 + 2) 0 = 255) ∧
    (SimdValid (List.replicate 16 255) (List.replicate 4 128) (List.replicate 4 255)
        8 2 8 4 4 (List.replicate 48 0).length →
      ∃ out, write_rgb8_f32x8 (List.replicate 16 255) (List.replicate 4 128)
          (List.replicate 4 255) (8, 2) (8, 4, 4) (List.replicate 48 0) = .ok out ∧
        out.getD ((0 * 8 + 0) * 3) 0 = 255 ∧
        out.getD ((0 * 8 + 0) * 3 + 1) 0 = 164 ∧
        out.getD ((0 * 8 + 0) * 3 + 2) 0 = 255)) :=
  ⟨by decide, by decide,
    (c9_saturation_per_channel (List.replicate 16 255) (List.replicate 4 128)
      (List.replicate 4 255) 8 2 8 4 4 0 0 (List.replicate 48 0)).2.2.2 (by decide)
      (by decide) (by decide) (by decide) (by decide) (by decide)⟩

/-- C10: determinism and target-independence.  Two runs of the same
converter on identical planes, dimensions and strides but arbitrary
initial target contents (of sufficient length) write the same value to
every byte of the image region. -/
theorem c10_deterministic (yP uP vP : List ℕ) (w h s0 s1 s2 : ℕ) (t1 t2 : List ℕ)
    (hv1 : ScalarValid yP uP vP w h s0 s1 s2 t1.length)
    (hv2 : ScalarValid yP uP vP w h s0 s1 s2 t2.length) :
    (∃ o1 o2, write_rgb8_scalar yP uP vP (w, h) (s0, s1, s2) t1 = .ok o1 ∧
      write_rgb8_scalar yP uP vP (w, h) (s0, s1, s2) t2 = .ok o2 ∧
      ∀ i, i < w * h * 3 → o1.getD i 0 = o2.getD i 0) ∧
    (SimdValid yP uP vP w h s0 s1 s2 t1.length →
      SimdValid yP uP vP w h s0 s1 s2 t2.length →
      ∃ o1 o2, write_rgb8_f32x8 yP uP vP (w, h) (s0, s1, s2) t1 = .ok o1 ∧
        write_rgb8_f32x8 yP uP vP (w, h) (s0, s1, s2) t2 = .ok o2 ∧
        ∀ i, i < w * h * 3 → o1.getD i 0 = o2.getD i 0) := by
  have hsame : ∀ i, i < w * h * 3 →
      (rgbImage yP uP vP w h s0 s1 s2 t1).getD i 0 =
        (rgbImage yP uP vP w h s0 s1 s2 t2).getD i 0 := by
    intro i hi
    rw [getD_rgbImage yP uP vP w h s0 s1 s2 t1 i
        (by have := hv1.2.2.2.2.2.2.2; omega), if_pos hi,
      getD_rgbImage yP uP vP w h s0 s1 s2 t2 i
        (by have := hv2.2.2.2.2.2.2.2; omega), if_pos hi]
  exact ⟨⟨_, _, scalar_spec_of_valid _ _ _ _ _ _ _ _ _ hv1,
      scalar_spec_of_valid _ _ _ _ _ _ _ _ _ hv2, hsame⟩,
    fun sv1 sv2 => ⟨_, _, simd_spec_of_valid _ _ _ _ _ _ _ _ _ sv1,
      simd_spec_of_valid _ _ _ _ _ _ _ _ _ sv2, hsame⟩⟩

/-- C10 witness: two runs with differing initial target contents. -/
theorem c10_deterministic_witness :
    ScalarValid (List.replicate 16 0) (List.replicate 4 128) (List.replicate 4 128)
      8 2 8 4 4 (List.replicate 48 0).length ∧
    ScalarValid (List.replicate 16 0) (List.replicate 4 128) (List.replicate 4 128)
      8 2 8 4 4 (List.replicate 48 9).length ∧
    ((∃ o1 o2, write_rgb8_scalar (List.replicate 16 0) (List.replicate 4 128)
        (List.replicate 4 128) (8, 2) (8, 4, 4) (List.replicate 48 0) = .ok o1 ∧
      write_rgb8_scalar (List.replicate 16 0) (List.replicate 4 128)
        (List.replicate 4 128) (8, 2) (8, 4, 4) (List.replicate 48 9) = .ok o2 ∧
      ∀ i, i < 8 * 2 * 3 → o1.getD i 0 = o2.getD i 0) ∧
    (SimdValid (List.replicate 16 0) (List.replicate 4 128) (List.replicate 4 128)
        8 2 8 4 4 (List.replicate 48 0).length →
      SimdValid (List.replicate 16 0) (List.replicate 4 128) (List.replicate 4 128)
        8 2 8 4 4 (List.replicate 48 9).length →
      ∃ o1 o2, write_rgb8_f32x8 (List.replicate 16 0) (List.replicate 4 128)
          (List.replicate 4 128) (8, 2) (8, 4, 4) (List.replicate 48 0) = .ok o1 ∧
        write_rgb8_f32x8 (List.replicate 16 0) (List.replicate 4 128)
          (List.replicate 4 128) (8, 2) (8, 4, 4) (List.replicate 48 9) = .ok o2 ∧
        ∀ i, i < 8 * 2 * 3 → o1.getD i 0 = o2.getD i 0)) :=
  ⟨by decide, by decide,
    c10_deterministic (List.replicate 16 0) (List.replicate 4 128)
      (List.replicate 4 128) 8 2 8 4 4 (List.replicate 48 0) (List.replicate 48 9)
      (by decide) (by decide)⟩

end Yuv2Rgb
